import Mathlib

/-!
A shallow embedding of `src/bench.rs` from the c2c-latency repository: the
sweep controller `run_bench`, the `Bench` trait it drives, and the
aggregation / reporting code at the end of the run.

Modelling conventions, chosen once and used throughout:

* `f64` latency values are embedded as `ℚ`; an `f64` cell that may hold NaN
  is `Option ℚ` with `none` standing for NaN.  The tensor is created with
  every cell `none` (the `f64::NAN` initialisation) and real samples are
  always `some`.
* A Rust panic (a failed `assert!`, `expect`, `unwrap` or an out-of-bounds
  slice index) is the `Except.error` branch; the error payload is the list
  of observable side effects (memory binds, `Bench::run` calls, printed
  table cells) that happened before the panic.
* The hwloc `Topology`, the `quanta` clock and the concrete `Bench`
  implementations are external collaborators: the topology is a record of
  the two lookups and the bind call `run_bench` makes, and a `Bench` is its
  `run` function (the clock, threaded through unchanged, lives inside that
  function) together with `is_symmetric`.
* `eprint!`/`eprintln!` table formatting carries no data beyond the printed
  mean and standard deviation of each measured cell, which are recorded as
  `Event.cell`; the `{:>4.0}`-style rounding of the rendered strings is not
  modelled.  The CSV block writes to stdout, a stream distinct from the
  diagnostic table, and is modelled as the separate `Report.csv` field
  (`none` per cell = the empty CSV field).
* Square roots of the (exactly computed, rational) variances appear only in
  the display-level definitions `summaryStderr`, `tableStderr` and
  `specStderr`, which produce real numbers.
-/

/-- `core_affinity::CoreId`: an opaque physical-core identifier. -/
structure CoreId where
  id : Nat
deriving DecidableEq

/-- An hwloc processing unit, as `run_bench` uses it: its NUMA nodeset
(`pu.nodeset()` returns an option). A nodeset is the list of node indices. -/
structure PU where
  nodeset : Option (List Nat)
deriving DecidableEq

/-- `hwlocality::memory::binding::MemoryBindingPolicy`: only `Bind` is used. -/
inductive MemoryBindingPolicy where
  | Bind
deriving DecidableEq

/-- The two `MemoryBindingFlags` bits `run_bench` passes: `MIGRATE | STRICT`. -/
structure MemoryBindingFlags where
  migrate : Bool
  strict : Bool
deriving DecidableEq

/-- The hwloc topology as `run_bench` consumes it: the PU lookup
`topology.pu_with_os_index`, and the outcome of `topology.bind_memory`
(`true` = the bind call succeeded, `false` = it returned an error). -/
structure Topology where
  pu_with_os_index : Nat → Option PU
  bind_memory_ok : List Nat → MemoryBindingPolicy → MemoryBindingFlags → Bool

/-- The CLI fields `run_bench` reads from `args`. `Count` is `u32` in the
source; sample and iteration counts are embedded as `Nat`. -/
structure CliArgs where
  num_samples : Nat
  num_iterations : Nat
  csv : Bool

/-- The `Bench` trait: `run` takes the core pair, the iteration count and the
total number of repetitions and yields one latency per repetition (the clock
argument of the source, an opaque collaborator passed through unchanged, is
captured inside `run`); `is_symmetric` defaults to `true` as in the source. -/
structure Bench where
  run : CoreId × CoreId → Nat → Nat → List ℚ
  is_symmetric : Bool := true

/-- One observable side effect of the sweep, in program order:
a `topology.bind_memory` call, a `Bench::run` invocation, or a printed
table cell (its mean and the ddof-1 variance whose square root is shown). -/
inductive Event where
  | bind (i j : Nat) (nodes : List Nat) (policy : MemoryBindingPolicy) (flags : MemoryBindingFlags)
  | run (i j : Nat) (numIterations numRepetitions : Nat)
  | cell (i j : Nat) (mean : ℚ) (variance : Option ℚ)
deriving DecidableEq

/-- `ndarray`'s `mean()`: `none` for an empty slice, else the arithmetic mean. -/
def listMean (xs : List ℚ) : Option ℚ :=
  if xs.length = 0 then none else some (xs.sum / (xs.length : ℚ))

/-- `ndarray`'s `var(1.0)` (so `std(1.0)` before the square root) on a list of
real (non-NaN) values: the sum of squared deviations over `len - 1`.  For a
single value this is `0/0`, i.e. NaN, hence `none`. -/
def sampleVarNd (xs : List ℚ) : Option ℚ :=
  if xs.length ≤ 1 then none
  else some ((xs.map (fun x => (x - xs.sum / (xs.length : ℚ)) ^ 2)).sum / ((xs.length : ℚ) - 1))

/-- Mean of a slice of possibly-NaN `f64` cells: NaN (`none`) as soon as one
cell is NaN, `none` for the empty slice (where the caller's `mean()` returned
`None` and the `unwrap` would panic — all call sites below guard this). -/
def meanCells (cells : List (Option ℚ)) : Option ℚ :=
  if cells.length = 0 then none
  else if cells.all Option.isSome then
    some (((cells.filterMap id).sum) / (cells.length : ℚ))
  else none

/-- ddof-1 variance of a slice of possibly-NaN cells: NaN in, NaN out. -/
def varCells (cells : List (Option ℚ)) : Option ℚ :=
  if cells.all Option.isSome then sampleVarNd (cells.filterMap id) else none

/-- The sample-axis slice `results[i, j, ..]` of the latency tensor. -/
def slice3 (t : Nat → Nat → Nat → Option ℚ) (i j ns : Nat) : List (Option ℚ) :=
  (List.range ns).map (t i j)

/-- All `(i, j)` index pairs in the row-major order of the two nested loops
(and of `ndarray`'s `indexed_iter` on an `(n, n)` array). -/
def pairsList (n : Nat) : List (Nat × Nat) :=
  (List.range n).flatMap (fun i => (List.range n).map (fun j => (i, j)))

/-- `results.iter()`: every cell of the `(n, n, ns)` tensor in row-major order. -/
def flatten3 (t : Nat → Nat → Nat → Option ℚ) (n ns : Nat) : List (Option ℚ) :=
  (pairsList n).flatMap (fun p => slice3 t p.1 p.2 ns)

/-- `mean.indexed_iter().filter_map(|(i, v)| NotNan::new(*v).ok().map(|v| (i, v)))`:
the per-pair means that are not NaN, with their indices, in row-major order. -/
def validMeans (t : Nat → Nat → Nat → Option ℚ) (n ns : Nat) : List ((Nat × Nat) × ℚ) :=
  (pairsList n).filterMap (fun p => (meanCells (slice3 t p.1 p.2 ns)).map (fun v => (p, v)))

/-- Rust's `Iterator::min_by_key` on the value component: of several equally
minimal elements the first is returned. -/
def minByKeyVal {α : Type} : List (α × ℚ) → Option (α × ℚ)
  | [] => none
  | x :: xs => some (xs.foldl (fun acc y => if y.2 < acc.2 then y else acc) x)

/-- Rust's `Iterator::max_by_key` on the value component: of several equally
maximal elements the last is returned. -/
def maxByKeyVal {α : Type} : List (α × ℚ) → Option (α × ℚ)
  | [] => none
  | x :: xs => some (xs.foldl (fun acc y => if acc.2 ≤ y.2 then y else acc) x)

/-- Whether cell `(i, j)` is measured: the symmetric branch skips `i <= j`
(`continue`), the non-symmetric branch skips only the diagonal `i == j`. -/
def measured (symmetric : Bool) (i j : Nat) : Bool :=
  if symmetric then !(decide (i ≤ j)) else !(decide (i = j))

/-- `cores[i]` (always called in range by `run_bench`). -/
def coreAt (cores : List CoreId) (i : Nat) : CoreId :=
  cores.getD i ⟨0⟩

/-- The nodeset `run_bench` binds to for row `i`:
`topology.pu_with_os_index(core_i.id)` then `pu_i.nodeset()` (the source's
`NodeSet::new() | ...` is a union with the empty nodeset, i.e. the nodeset
itself). `none` when either lookup fails and the `expect` panics. -/
def nodesetLookup (topo : Topology) (c : CoreId) : Option (List Nat) :=
  (topo.pu_with_os_index c.id).bind PU.nodeset

/-- The state the sweep loop threads: the latency tensor (a total function;
out-of-range indices simply stay NaN) and the side effects so far. -/
structure SweepState where
  tensor : Nat → Nat → Nat → Option ℚ
  events : List Event

/-- The body of the inner `for j` loop for the pair `p = (i, j)`: skip, or
bind memory, run the bench with `1 + num_samples` repetitions, drop the
warm-up value at index 0, store the remaining samples into the tensor and
print the cell.  Every panic of the body is an `Except.error` carrying the
side effects that already happened:  a failed PU/nodeset lookup, a failed
bind, the slice `&durations[1..]` on an empty vector, an out-of-range
`durations[s]` read, and `values.mean().unwrap()` on an empty sample axis. -/
def pairStep (topo : Topology) (bench : Bench) (cores : List CoreId) (ni ns : Nat)
    (st : SweepState) (p : Nat × Nat) : Except (List Event) SweepState :=
  if measured bench.is_symmetric p.1 p.2 = false then .ok st else
  match nodesetLookup topo (coreAt cores p.1) with
  | none => .error st.events
  | some nodes =>
    let ev1 := st.events ++ [Event.bind p.1 p.2 nodes .Bind ⟨true, true⟩]
    if topo.bind_memory_ok nodes .Bind ⟨true, true⟩ = false then .error ev1 else
    let durations := bench.run (coreAt cores p.1, coreAt cores p.2) ni (1 + ns)
    let ev2 := ev1 ++ [Event.run p.1 p.2 ni (1 + ns)]
    if durations.length < 1 then .error ev2 else
    let durs := durations.drop 1
    if durs.length < ns then .error ev2 else
    let t := fun a b s => if a = p.1 ∧ b = p.2 ∧ s < ns then some (durs.getD s 0) else st.tensor a b s
    if ns = 0 then .error ev2 else
    let samples := durs.take ns
    .ok { tensor := t,
          events := ev2 ++ [Event.cell p.1 p.2 (samples.sum / (ns : ℚ)) (sampleVarNd samples)] }

/-- The two nested measurement loops, flattened over the row-major pair list. -/
def sweep (topo : Topology) (bench : Bench) (cores : List CoreId) (ni ns : Nat)
    (st : SweepState) : Except (List Event) SweepState :=
  (pairsList cores.length).foldlM (pairStep topo bench cores ni ns) st

/-- Everything `run_bench` reports: the final tensor, the ordered side
effects, the min/max summary lines (tensor index, printed core-id pair, the
printed mean and the variance whose square root the `±` figure shows), the
global mean latency line, and the optional CSV matrix written to stdout
(`none` = CSV not requested; a `none` cell = an empty CSV field). -/
structure Report where
  tensor : Nat → Nat → Nat → Option ℚ
  events : List Event
  minIdx : Nat × Nat
  minCores : Nat × Nat
  minMean : ℚ
  minVar : Option ℚ
  maxIdx : Nat × Nat
  maxCores : Nat × Nat
  maxMean : ℚ
  maxVar : Option ℚ
  meanLatency : ℚ
  csv : Option (List (List (Option ℚ)))

/-- `run_bench` of `src/bench.rs`: assert at least two cores, create the
all-NaN `(n, n, num_samples)` tensor, sweep every pair, then aggregate:
per-pair means (`mean_axis(Axis(2)).unwrap()`, whose unwrap panics when the
sample axis is empty), the min and max over the non-NaN means with their
core pairs, the global mean over all non-NaN samples
(`values.mean().unwrap()`), and the CSV matrix when requested. -/
def run_bench (topo : Topology) (cores : List CoreId) (args : CliArgs) (bench : Bench) :
    Except (List Event) Report :=
  let ns := args.num_samples
  let ni := args.num_iterations
  let n := cores.length
  if n < 2 then .error [] else
  match sweep topo bench cores ni ns ⟨fun _ _ _ => none, []⟩ with
  | .error e => .error e
  | .ok st =>
    if ns = 0 then .error st.events else
    let meanList := validMeans st.tensor n ns
    match minByKeyVal meanList, maxByKeyVal meanList with
    | some minE, some maxE =>
      let flat := (flatten3 st.tensor n ns).filterMap id
      if flat.length = 0 then .error st.events else
      .ok { tensor := st.tensor,
            events := st.events,
            minIdx := minE.1,
            minCores := ((coreAt cores minE.1.1).id, (coreAt cores minE.1.2).id),
            minMean := minE.2,
            minVar := varCells (slice3 st.tensor minE.1.1 minE.1.2 ns),
            maxIdx := maxE.1,
            maxCores := ((coreAt cores maxE.1.1).id, (coreAt cores maxE.1.2).id),
            maxMean := maxE.2,
            maxVar := varCells (slice3 st.tensor maxE.1.1 maxE.1.2 ns),
            meanLatency := flat.sum / (flat.length : ℚ),
            csv := if args.csv then
              some ((List.range n).map (fun i => (List.range n).map (fun j =>
                meanCells (slice3 st.tensor i j ns))))
            else none }
    | _, _ => .error st.events

/-- `e.isOk`: whether the run completed without a panic. -/
def exceptOk {ε α : Type} : Except ε α → Bool
  | .ok _ => true
  | .error _ => false

/-! ## The success-path mirror of the sweep

`stepSpec` is the panic-free value of `pairStep` (proved equal to it under
`stepOk`), `sweepSpec`/`reportSpec` the corresponding values of
`sweep`/`run_bench`; `benchOk` collects the conditions under which the run
completes.  These give every theorem below a concrete report to talk about. -/

/-- The samples the sweep stores for the pair `p`: the `Bench::run` result at
`1 + num_samples` repetitions with the warm-up value at index 0 dropped. -/
def pairSamplesF (bench : Bench) (cores : List CoreId) (ni ns : Nat) (p : Nat × Nat) : List ℚ :=
  ((bench.run (coreAt cores p.1, coreAt cores p.2) ni (1 + ns)).drop 1).take ns

/-- The per-pair mean the table cell and the CSV show for the pair `p`. -/
def pairMeanF (bench : Bench) (cores : List CoreId) (ni ns : Nat) (p : Nat × Nat) : ℚ :=
  (pairSamplesF bench cores ni ns p).sum / (ns : ℚ)

/-- The conditions under which `pairStep` cannot panic at `p` (they do not
depend on the incoming state): the pair is skipped, or the PU/nodeset lookup
succeeds, the strict migrating bind succeeds, `Bench::run` honours its length
contract and the sample count is positive. -/
def stepOk (topo : Topology) (bench : Bench) (cores : List CoreId) (ni ns : Nat)
    (p : Nat × Nat) : Bool :=
  !(measured bench.is_symmetric p.1 p.2) ||
    ((match nodesetLookup topo (coreAt cores p.1) with
      | none => false
      | some nodes => topo.bind_memory_ok nodes .Bind ⟨true, true⟩) &&
     decide (1 + ns ≤ (bench.run (coreAt cores p.1, coreAt cores p.2) ni (1 + ns)).length) &&
     decide (1 ≤ ns))

/-- The value of `pairStep` at `p` when it does not panic. -/
def stepSpec (topo : Topology) (bench : Bench) (cores : List CoreId) (ni ns : Nat)
    (st : SweepState) (p : Nat × Nat) : SweepState :=
  if measured bench.is_symmetric p.1 p.2 = false then st else
  let nodes := (nodesetLookup topo (coreAt cores p.1)).getD []
  let durs := (bench.run (coreAt cores p.1, coreAt cores p.2) ni (1 + ns)).drop 1
  let samples := durs.take ns
  { tensor := fun a b s => if a = p.1 ∧ b = p.2 ∧ s < ns then some (durs.getD s 0) else st.tensor a b s,
    events := st.events ++ [Event.bind p.1 p.2 nodes .Bind ⟨true, true⟩,
                            Event.run p.1 p.2 ni (1 + ns),
                            Event.cell p.1 p.2 (samples.sum / (ns : ℚ)) (sampleVarNd samples)] }

/-- The final sweep state of a panic-free run. -/
def sweepSpec (topo : Topology) (bench : Bench) (cores : List CoreId) (ni ns : Nat) : SweepState :=
  (pairsList cores.length).foldl (stepSpec topo bench cores ni ns) ⟨fun _ _ _ => none, []⟩

/-- All conditions under which `run_bench` completes without a panic:
at least two cores, at least one sample, and `stepOk` at every pair. -/
def benchOk (topo : Topology) (cores : List CoreId) (args : CliArgs) (bench : Bench) : Bool :=
  decide (2 ≤ cores.length) && decide (1 ≤ args.num_samples) &&
    (pairsList cores.length).all (stepOk topo bench cores args.num_iterations args.num_samples)

/-- The report of a panic-free run (the `getD` defaults are never reached
under `benchOk`, where `validMeans` is nonempty). -/
def reportSpec (topo : Topology) (cores : List CoreId) (args : CliArgs) (bench : Bench) : Report :=
  let ns := args.num_samples
  let n := cores.length
  let st := sweepSpec topo bench cores args.num_iterations ns
  let meanList := validMeans st.tensor n ns
  let minE := (minByKeyVal meanList).getD ((0, 0), 0)
  let maxE := (maxByKeyVal meanList).getD ((0, 0), 0)
  let flat := (flatten3 st.tensor n ns).filterMap id
  { tensor := st.tensor,
    events := st.events,
    minIdx := minE.1,
    minCores := ((coreAt cores minE.1.1).id, (coreAt cores minE.1.2).id),
    minMean := minE.2,
    minVar := varCells (slice3 st.tensor minE.1.1 minE.1.2 ns),
    maxIdx := maxE.1,
    maxCores := ((coreAt cores maxE.1.1).id, (coreAt cores maxE.1.2).id),
    maxMean := maxE.2,
    maxVar := varCells (slice3 st.tensor maxE.1.1 maxE.1.2 ns),
    meanLatency := flat.sum / (flat.length : ℚ),
    csv := if args.csv then
      some ((List.range n).map (fun i => (List.range n).map (fun j =>
        meanCells (slice3 st.tensor i j ns))))
    else none }

/-! ## Display-level statistics

The square roots the report renders.  `specSampleVar`/`specStderr` are
modelled from the spec's words — "sample standard deviation (with one delta
degree of freedom) of that pair's samples divided by √samples" — to be
compared with what the code prints. -/

/-- Modelled from the spec: the ddof-1 sample variance of a pair's samples. -/
def specSampleVar (xs : List ℚ) : ℚ :=
  (xs.map (fun x => (x - xs.sum / (xs.length : ℚ)) ^ 2)).sum / ((xs.length : ℚ) - 1)

/-- Modelled from the spec: the standard error `stddev / √samples`. -/
noncomputable def specStderr (xs : List ℚ) (ns : Nat) : ℝ :=
  Real.sqrt (specSampleVar xs) / Real.sqrt (ns : ℝ)

/-- The `±` value of the min/max summary lines:
`results.std_axis(Axis(2), 1.0) / (num_samples as f64).sqrt()` at the chosen
index, given the (rational) ddof-1 variance of that pair's samples. -/
noncomputable def summaryStderr (v : ℚ) (ns : Nat) : ℝ :=
  Real.sqrt (v : ℝ) / Real.sqrt (ns : ℝ)

/-- The `±` value of a table cell:
`values.std(1.0).min(99.0) / (num_samples as f64).sqrt()`, given the
variance recorded for the cell.  `f64::min` ignores a NaN argument, so a NaN
standard deviation (`none`, one sample) yields `99.0`. -/
noncomputable def tableStderr (v : Option ℚ) (ns : Nat) : ℝ :=
  (match v with
   | some x => min (Real.sqrt (x : ℝ)) 99
   | none => (99 : ℝ)) / Real.sqrt (ns : ℝ)

/-! ## Basic facts about the pair grid -/

/-- Row-major order on index pairs: `p` is emitted strictly before `q`. -/
def pairLt (p q : Nat × Nat) : Prop :=
  p.1 < q.1 ∨ (p.1 = q.1 ∧ p.2 < q.2)

lemma mem_pairsList {n : Nat} {p : Nat × Nat} :
    p ∈ pairsList n ↔ p.1 < n ∧ p.2 < n := by
  unfold pairsList
  simp only [List.mem_flatMap, List.mem_map, List.mem_range]
  constructor
  · rintro ⟨i, hi, j, hj, rfl⟩
    exact ⟨hi, hj⟩
  · rintro ⟨h1, h2⟩
    exact ⟨p.1, h1, p.2, h2, rfl⟩

lemma pairsList_pairwise (n : Nat) : (pairsList n).Pairwise pairLt := by
  unfold pairsList
  rw [List.flatMap, List.pairwise_flatten]
  constructor
  · intro l hl
    simp only [List.mem_map, List.mem_range] at hl
    obtain ⟨i, -, rfl⟩ := hl
    rw [List.pairwise_map]
    exact (List.pairwise_lt_range n).imp (fun h => Or.inr ⟨rfl, h⟩)
  · rw [List.pairwise_map]
    refine (List.pairwise_lt_range n).imp ?_
    intro i i' hii x hx y hy
    simp only [List.mem_map, List.mem_range] at hx hy
    obtain ⟨j, -, rfl⟩ := hx
    obtain ⟨j', -, rfl⟩ := hy
    exact Or.inl hii

/-! ## Fold machinery: the monadic sweep versus its panic-free mirror -/

lemma foldlM_except_congr {σ α ε : Type} (f : σ → α → Except ε σ) (g : σ → α → σ)
    (l : List α) (h : ∀ p ∈ l, ∀ st, f st p = .ok (g st p)) :
    ∀ st, l.foldlM f st = .ok (l.foldl g st) := by
  induction l with
  | nil => intro st; rfl
  | cons a t ih =>
    intro st
    rw [List.foldlM_cons, h a (List.mem_cons_self a t) st]
    exact ih (fun p hp st => h p (List.mem_cons_of_mem a hp) st) (g st a)

lemma foldlM_except_ok_forall {σ α ε : Type} (f : σ → α → Except ε σ) (Q : α → Prop)
    (hQ : ∀ st a st2, f st a = .ok st2 → Q a) :
    ∀ (l : List α) (st st3), l.foldlM f st = .ok st3 → ∀ a ∈ l, Q a := by
  intro l
  induction l with
  | nil => intro st st3 _ a ha; exact absurd ha (List.not_mem_nil a)
  | cons b t ih =>
    intro st st3 h a ha
    rw [List.foldlM_cons] at h
    cases hfb : f st b with
    | error e => rw [hfb] at h; exact Except.noConfusion h
    | ok st1 =>
      rw [hfb] at h
      rcases List.mem_cons.mp ha with rfl | hat
      · exact hQ st a st1 hfb
      · exact ih st1 st3 h a hat

lemma measured_eq_true {symmetric : Bool} {i j : Nat}
    (h : ¬ measured symmetric i j = false) : measured symmetric i j = true := by
  cases hm : measured symmetric i j with
  | false => exact absurd hm h
  | true => rfl

lemma pairStep_eq_stepSpec (topo : Topology) (bench : Bench) (cores : List CoreId)
    (ni ns : Nat) (st : SweepState) (p : Nat × Nat)
    (h : stepOk topo bench cores ni ns p = true) :
    pairStep topo bench cores ni ns st p = .ok (stepSpec topo bench cores ni ns st p) := by
  unfold pairStep stepSpec
  by_cases hm : measured bench.is_symmetric p.1 p.2 = false
  · simp [hm]
  · have hm' := measured_eq_true hm
    unfold stepOk at h
    simp only [hm', Bool.not_true, Bool.false_or, Bool.and_eq_true, decide_eq_true_eq] at h
    obtain ⟨⟨hbind, hlen⟩, hns⟩ := h
    cases hnl : nodesetLookup topo (coreAt cores p.1) with
    | none => rw [hnl] at hbind; exact absurd hbind (by simp)
    | some nodes =>
      rw [hnl] at hbind
      have hlen1 : ¬ ((bench.run (coreAt cores p.1, coreAt cores p.2) ni (1 + ns)).length < 1) := by
        omega
      have hlen2 : ¬ (((bench.run (coreAt cores p.1, coreAt cores p.2) ni (1 + ns)).drop 1).length < ns) := by
        rw [List.length_drop]; omega
      have hns0 : ¬ (ns = 0) := by omega
      have hb : topo.bind_memory_ok nodes .Bind ⟨true, true⟩ = true := hbind
      simp only [hm, hnl, hb, hlen1, hlen2, hns0, if_false, ite_false, if_neg,
        Bool.true_eq_false, Option.getD_some, List.append_assoc, List.singleton_append,
        List.cons_append, List.nil_append, Except.ok.injEq]

lemma pairStep_ok_stepOk (topo : Topology) (bench : Bench) (cores : List CoreId)
    (ni ns : Nat) (st : SweepState) (p : Nat × Nat) (st2 : SweepState)
    (h : pairStep topo bench cores ni ns st p = .ok st2) :
    stepOk topo bench cores ni ns p = true := by
  unfold pairStep at h
  unfold stepOk
  by_cases hm : measured bench.is_symmetric p.1 p.2 = false
  · simp [hm]
  · have hm' := measured_eq_true hm
    rw [if_neg (by simp [hm'])] at h
    simp only [hm', Bool.not_true, Bool.false_or, Bool.and_eq_true, decide_eq_true_eq]
    cases hnl : nodesetLookup topo (coreAt cores p.1) with
    | none => rw [hnl] at h; exact Except.noConfusion h
    | some nodes =>
      rw [hnl] at h
      dsimp only at h
      by_cases hb : topo.bind_memory_ok nodes .Bind ⟨true, true⟩ = false
      · rw [if_pos hb] at h; exact Except.noConfusion h
      · rw [if_neg hb] at h
        by_cases hl1 : (bench.run (coreAt cores p.1, coreAt cores p.2) ni (1 + ns)).length < 1
        · rw [if_pos hl1] at h; exact Except.noConfusion h
        · rw [if_neg hl1] at h
          by_cases hl2 : ((bench.run (coreAt cores p.1, coreAt cores p.2) ni (1 + ns)).drop 1).length < ns
          · rw [if_pos hl2] at h; exact Except.noConfusion h
          · rw [if_neg hl2] at h
            by_cases hns : ns = 0
            · rw [if_pos hns] at h; exact Except.noConfusion h
            · rw [List.length_drop] at hl2
              refine ⟨⟨?_, by omega⟩, by omega⟩
              show topo.bind_memory_ok nodes .Bind ⟨true, true⟩ = true
              cases hbv : topo.bind_memory_ok nodes .Bind ⟨true, true⟩ with
              | false => exact absurd hbv hb
              | true => rfl

/-- The final tensor of a panic-free run: a measured, in-range cell `(a,b,s)`
holds sample `s` of the pair's post-warm-up durations, everything else is
still the NaN it was initialised to. -/
def finalTensor (bench : Bench) (cores : List CoreId) (ni ns : Nat) (a b s : Nat) : Option ℚ :=
  if measured bench.is_symmetric a b = true ∧ a < cores.length ∧ b < cores.length ∧ s < ns then
    some (((bench.run (coreAt cores a, coreAt cores b) ni (1 + ns)).drop 1).getD s 0)
  else none

/-- The three side effects of one measured pair, in program order. -/
def chunkOf (topo : Topology) (bench : Bench) (cores : List CoreId) (ni ns : Nat)
    (p : Nat × Nat) : List Event :=
  [Event.bind p.1 p.2 ((nodesetLookup topo (coreAt cores p.1)).getD []) .Bind ⟨true, true⟩,
   Event.run p.1 p.2 ni (1 + ns),
   Event.cell p.1 p.2 (pairMeanF bench cores ni ns p)
     (sampleVarNd (pairSamplesF bench cores ni ns p))]

lemma foldl_stepSpec_tensor (topo : Topology) (bench : Bench) (cores : List CoreId)
    (ni ns : Nat) (l : List (Nat × Nat)) (st : SweepState) (a b s : Nat) :
    (l.foldl (stepSpec topo bench cores ni ns) st).tensor a b s =
      if (a, b) ∈ l ∧ measured bench.is_symmetric a b = true ∧ s < ns then
        some (((bench.run (coreAt cores a, coreAt cores b) ni (1 + ns)).drop 1).getD s 0)
      else st.tensor a b s := by
  induction l generalizing st with
  | nil => simp
  | cons p t ih =>
    rw [List.foldl_cons, ih]
    by_cases hmem : (a, b) ∈ p :: t
    · by_cases hmt : (a, b) ∈ t
      · by_cases hrest : measured bench.is_symmetric a b = true ∧ s < ns
        · rw [if_pos ⟨hmt, hrest.1, hrest.2⟩, if_pos ⟨hmem, hrest.1, hrest.2⟩]
        · rw [if_neg (by tauto), if_neg (by tauto)]
          unfold stepSpec
          by_cases hm : measured bench.is_symmetric p.1 p.2 = false
          · rw [if_pos hm]
          · rw [if_neg hm]
            show (if a = p.1 ∧ b = p.2 ∧ s < ns then _ else st.tensor a b s) = st.tensor a b s
            rw [if_neg]
            rintro ⟨rfl, rfl, hs⟩
            exact hrest ⟨measured_eq_true hm, hs⟩
      · have hp : p = (a, b) := by
          rcases List.mem_cons.mp hmem with h | h
          · exact h.symm
          · exact absurd h hmt
        subst hp
        rw [if_neg (by tauto)]
        by_cases hrest : measured bench.is_symmetric a b = true ∧ s < ns
        · rw [if_pos ⟨hmem, hrest.1, hrest.2⟩]
          unfold stepSpec
          rw [if_neg (by simp [hrest.1])]
          show (if a = a ∧ b = b ∧ s < ns then _ else _) = _
          rw [if_pos ⟨rfl, rfl, hrest.2⟩]
        · rw [if_neg (by tauto)]
          unfold stepSpec
          by_cases hm : measured bench.is_symmetric a b = false
          · rw [if_pos (by simpa using hm)]
          · rw [if_neg (show ¬ measured bench.is_symmetric (a, b).1 (a, b).2 = false by simpa using hm)]
            show (if a = a ∧ b = b ∧ s < ns then _ else st.tensor a b s) = st.tensor a b s
            rw [if_neg]
            rintro ⟨-, -, hs⟩
            exact hrest ⟨measured_eq_true hm, hs⟩
    · have hmt : ¬ (a, b) ∈ t := fun h => hmem (List.mem_cons_of_mem p h)
      have hpab : ¬ p = (a, b) := fun h => hmem (h ▸ List.mem_cons_self p t)
      rw [if_neg (by tauto), if_neg (by tauto)]
      unfold stepSpec
      by_cases hm : measured bench.is_symmetric p.1 p.2 = false
      · rw [if_pos hm]
      · rw [if_neg hm]
        show (if a = p.1 ∧ b = p.2 ∧ s < ns then _ else st.tensor a b s) = st.tensor a b s
        rw [if_neg]
        rintro ⟨h1, h2, -⟩
        exact hpab (Prod.ext h1.symm h2.symm)

lemma foldl_stepSpec_events (topo : Topology) (bench : Bench) (cores : List CoreId)
    (ni ns : Nat) (l : List (Nat × Nat)) (st : SweepState) :
    (l.foldl (stepSpec topo bench cores ni ns) st).events =
      st.events ++ (l.filter (fun p => measured bench.is_symmetric p.1 p.2)).flatMap
        (chunkOf topo bench cores ni ns) := by
  induction l generalizing st with
  | nil => simp
  | cons p t ih =>
    rw [List.foldl_cons, ih, List.filter_cons]
    by_cases hm : measured bench.is_symmetric p.1 p.2 = true
    · rw [if_pos hm, List.flatMap_cons]
      have hst : (stepSpec topo bench cores ni ns st p).events =
          st.events ++ chunkOf topo bench cores ni ns p := by
        unfold stepSpec chunkOf pairMeanF pairSamplesF
        rw [if_neg (by simp [hm])]
      rw [hst, List.append_assoc]
    · rw [if_neg hm]
      have hst : (stepSpec topo bench cores ni ns st p).events = st.events := by
        unfold stepSpec
        rw [if_pos (by revert hm; cases measured bench.is_symmetric p.1 p.2 <;> simp)]
      rw [hst]

lemma sweepSpec_tensor (topo : Topology) (bench : Bench) (cores : List CoreId)
    (ni ns : Nat) (a b s : Nat) :
    (sweepSpec topo bench cores ni ns).tensor a b s = finalTensor bench cores ni ns a b s := by
  unfold sweepSpec finalTensor
  rw [foldl_stepSpec_tensor]
  by_cases h : (a, b) ∈ pairsList cores.length ∧ measured bench.is_symmetric a b = true ∧ s < ns
  · rw [if_pos h, if_pos]
    have := mem_pairsList.mp h.1
    exact ⟨h.2.1, this.1, this.2, h.2.2⟩
  · rw [if_neg h, if_neg]
    intro hc
    exact h ⟨mem_pairsList.mpr ⟨hc.2.1, hc.2.2.1⟩, hc.1, hc.2.2.2⟩

lemma sweepSpec_events (topo : Topology) (bench : Bench) (cores : List CoreId) (ni ns : Nat) :
    (sweepSpec topo bench cores ni ns).events =
      ((pairsList cores.length).filter (fun p => measured bench.is_symmetric p.1 p.2)).flatMap
        (chunkOf topo bench cores ni ns) := by
  unfold sweepSpec
  rw [foldl_stepSpec_events]
  rfl

lemma map_getD_range_eq_take (l : List ℚ) (ns : Nat) (h : ns ≤ l.length) :
    (List.range ns).map (fun s => l.getD s 0) = l.take ns := by
  apply List.ext_getElem
  · simp [Nat.min_eq_left h]
  · intro k h1 h2
    simp only [List.getElem_map, List.getElem_range, List.getElem_take]
    have hk : k < l.length := by simp at h1; omega
    rw [List.getD_eq_getElem l 0 hk]

lemma filterMap_id_map_some {α : Type} (f : α → ℚ) (l : List α) :
    (l.map (fun x => some (f x))).filterMap id = l.map f := by
  induction l with
  | nil => rfl
  | cons a t ih => simp only [List.map_cons, List.filterMap_cons, id, ih]

lemma slice3_finalTensor_measured (bench : Bench) (cores : List CoreId) (ni ns : Nat)
    (a b : Nat) (hm : measured bench.is_symmetric a b = true)
    (ha : a < cores.length) (hb : b < cores.length) :
    slice3 (finalTensor bench cores ni ns) a b ns =
      (List.range ns).map (fun s =>
        some (((bench.run (coreAt cores a, coreAt cores b) ni (1 + ns)).drop 1).getD s 0)) := by
  unfold slice3
  apply List.map_congr_left
  intro s hs
  rw [List.mem_range] at hs
  unfold finalTensor
  rw [if_pos ⟨hm, ha, hb, hs⟩]

lemma meanCells_finalTensor_measured (bench : Bench) (cores : List CoreId) (ni ns : Nat)
    (a b : Nat) (hm : measured bench.is_symmetric a b = true)
    (ha : a < cores.length) (hb : b < cores.length) (hns : 1 ≤ ns)
    (hlen : 1 + ns ≤ (bench.run (coreAt cores a, coreAt cores b) ni (1 + ns)).length) :
    meanCells (slice3 (finalTensor bench cores ni ns) a b ns) =
      some (pairMeanF bench cores ni ns (a, b)) := by
  rw [slice3_finalTensor_measured bench cores ni ns a b hm ha hb]
  unfold meanCells
  rw [if_neg (by simp; omega)]
  rw [if_pos (by simp)]
  rw [filterMap_id_map_some, map_getD_range_eq_take _ _ (by rw [List.length_drop]; omega)]
  unfold pairMeanF pairSamplesF
  simp

lemma varCells_finalTensor_measured (bench : Bench) (cores : List CoreId) (ni ns : Nat)
    (a b : Nat) (hm : measured bench.is_symmetric a b = true)
    (ha : a < cores.length) (hb : b < cores.length)
    (hlen : 1 + ns ≤ (bench.run (coreAt cores a, coreAt cores b) ni (1 + ns)).length) :
    varCells (slice3 (finalTensor bench cores ni ns) a b ns) =
      sampleVarNd (pairSamplesF bench cores ni ns (a, b)) := by
  rw [slice3_finalTensor_measured bench cores ni ns a b hm ha hb]
  unfold varCells
  rw [if_pos (by simp)]
  rw [filterMap_id_map_some, map_getD_range_eq_take _ _ (by rw [List.length_drop]; omega)]
  rfl

lemma meanCells_finalTensor_unmeasured (bench : Bench) (cores : List CoreId) (ni ns : Nat)
    (a b : Nat) (h : ¬ (measured bench.is_symmetric a b = true ∧ a < cores.length ∧ b < cores.length)) :
    meanCells (slice3 (finalTensor bench cores ni ns) a b ns) = none := by
  have hcell : ∀ s, finalTensor bench cores ni ns a b s = none := by
    intro s
    unfold finalTensor
    rw [if_neg (fun hc => h ⟨hc.1, hc.2.1, hc.2.2.1⟩)]
  unfold slice3 meanCells
  by_cases hns : ns = 0
  · rw [if_pos (by simp [hns])]
  · rw [if_neg (by simpa using hns)]
    rw [if_neg]
    intro hall
    rw [List.all_eq_true] at hall
    have h0 := hall none
      (List.mem_map.mpr ⟨0, List.mem_range.mpr (Nat.pos_of_ne_zero hns), hcell 0⟩)
    simp at h0

lemma mem_validMeans {t : Nat → Nat → Nat → Option ℚ} {n ns : Nat} {p : Nat × Nat} {v : ℚ} :
    (p, v) ∈ validMeans t n ns ↔
      p.1 < n ∧ p.2 < n ∧ meanCells (slice3 t p.1 p.2 ns) = some v := by
  unfold validMeans
  rw [List.mem_filterMap]
  constructor
  · rintro ⟨q, hq, hval⟩
    cases hmc : meanCells (slice3 t q.1 q.2 ns) with
    | none => rw [hmc] at hval; exact Option.noConfusion hval
    | some w =>
      rw [hmc] at hval
      simp only [Option.map_some', Option.some.injEq, Prod.mk.injEq] at hval
      obtain ⟨rfl, rfl⟩ := hval
      have := mem_pairsList.mp hq
      exact ⟨this.1, this.2, hmc⟩
  · rintro ⟨h1, h2, h3⟩
    exact ⟨p, mem_pairsList.mpr ⟨h1, h2⟩, by rw [h3]; rfl⟩

lemma validMeans_pairwise (t : Nat → Nat → Nat → Option ℚ) (n ns : Nat) :
    (validMeans t n ns).Pairwise (fun x y => pairLt x.1 y.1) := by
  unfold validMeans
  rw [List.pairwise_filterMap]
  refine (pairsList_pairwise n).imp ?_
  intro p q hpq x hx y hy
  cases hmp : meanCells (slice3 t p.1 p.2 ns) with
  | none => rw [hmp] at hx; exact absurd hx (by simp)
  | some w =>
    cases hmq : meanCells (slice3 t q.1 q.2 ns) with
    | none => rw [hmq] at hy; exact absurd hy (by simp)
    | some w2 =>
      rw [hmp] at hx
      rw [hmq] at hy
      simp only [Option.map_some', Option.mem_def, Option.some.injEq] at hx hy
      rw [← hx, ← hy]
      exact hpq

lemma minByKeyVal_isSome {α : Type} (l : List (α × ℚ)) (h : l ≠ []) :
    (minByKeyVal l).isSome = true := by
  cases l with
  | nil => exact absurd rfl h
  | cons x xs => rfl

lemma maxByKeyVal_isSome {α : Type} (l : List (α × ℚ)) (h : l ≠ []) :
    (maxByKeyVal l).isSome = true := by
  cases l with
  | nil => exact absurd rfl h
  | cons x xs => rfl

lemma minFoldl_spec {α : Type} (R : α × ℚ → α × ℚ → Prop) :
    ∀ (t : List (α × ℚ)) (a : α × ℚ), (a :: t).Pairwise R →
      (t.foldl (fun acc y => if y.2 < acc.2 then y else acc) a = a ∨
        t.foldl (fun acc y => if y.2 < acc.2 then y else acc) a ∈ t) ∧
      (t.foldl (fun acc y => if y.2 < acc.2 then y else acc) a).2 ≤ a.2 ∧
      (∀ y ∈ t, (t.foldl (fun acc y => if y.2 < acc.2 then y else acc) a).2 ≤ y.2) ∧
      ((t.foldl (fun acc y => if y.2 < acc.2 then y else acc) a).2 = a.2 →
        t.foldl (fun acc y => if y.2 < acc.2 then y else acc) a = a) ∧
      (∀ y ∈ a :: t, y.2 = (t.foldl (fun acc y => if y.2 < acc.2 then y else acc) a).2 →
        t.foldl (fun acc y => if y.2 < acc.2 then y else acc) a = y ∨
          R (t.foldl (fun acc y => if y.2 < acc.2 then y else acc) a) y) := by
  intro t
  induction t with
  | nil =>
    intro a _
    refine ⟨Or.inl rfl, le_refl _, by simp, fun _ => rfl, ?_⟩
    intro y hy hv
    rcases List.mem_singleton.mp hy with rfl
    exact Or.inl rfl
  | cons b t2 ih =>
    intro a hpw
    rw [List.foldl_cons]
    have hpw2 : (b :: t2).Pairwise R := hpw.of_cons
    have hRab : R a b := (List.pairwise_cons.mp hpw).1 b (List.mem_cons_self b t2)
    have hRat2 : ∀ y ∈ t2, R a y := fun y hy =>
      (List.pairwise_cons.mp hpw).1 y (List.mem_cons_of_mem b hy)
    by_cases hlt : b.2 < a.2
    · rw [if_pos hlt]
      obtain ⟨hmem, hle, hall, hfst, htie⟩ := ih b hpw2
      refine ⟨?_, ?_, ?_, ?_, ?_⟩
      · rcases hmem with h | h
        · exact Or.inr (by rw [h]; exact List.mem_cons_self b t2)
        · exact Or.inr (List.mem_cons_of_mem b h)
      · exact le_trans hle (le_of_lt hlt)
      · intro y hy
        rcases List.mem_cons.mp hy with rfl | hy2
        · exact hle
        · exact hall y hy2
      · intro heq
        exact absurd (heq ▸ lt_of_le_of_lt hle hlt) (lt_irrefl _)
      · intro y hy hv
        rcases List.mem_cons.mp hy with rfl | hy2
        · exact absurd (hv ▸ lt_of_le_of_lt hle hlt) (lt_irrefl _)
        · exact htie y hy2 hv
    · rw [if_neg hlt]
      push_neg at hlt
      have hpw3 : (a :: t2).Pairwise R := by
        rw [List.pairwise_cons]
        exact ⟨hRat2, hpw2.of_cons⟩
      obtain ⟨hmem, hle, hall, hfst, htie⟩ := ih a hpw3
      refine ⟨?_, hle, ?_, hfst, ?_⟩
      · rcases hmem with h | h
        · exact Or.inl h
        · exact Or.inr (List.mem_cons_of_mem b h)
      · intro y hy
        rcases List.mem_cons.mp hy with rfl | hy2
        · exact le_trans hle hlt
        · exact hall y hy2
      · intro y hy hv
        rcases List.mem_cons.mp hy with rfl | hy2
        · exact Or.inl (hfst hv.symm)
        · rcases List.mem_cons.mp hy2 with rfl | hy3
          · -- y = b : the fold's value is ≤ a.2 ≤ b.2 = the fold's value,
            -- so the fold kept the head a, and R a b applies
            have hza : t2.foldl (fun acc y => if y.2 < acc.2 then y else acc) a = a :=
              hfst (le_antisymm hle (by rw [← hv]; exact hlt))
            exact Or.inr (by rw [hza]; exact hRab)
          · exact htie y (List.mem_cons_of_mem a hy3) hv

lemma maxFoldl_spec {α : Type} (R : α × ℚ → α × ℚ → Prop) :
    ∀ (t : List (α × ℚ)) (a : α × ℚ), (a :: t).Pairwise R →
      (t.foldl (fun acc y => if acc.2 ≤ y.2 then y else acc) a = a ∨
        t.foldl (fun acc y => if acc.2 ≤ y.2 then y else acc) a ∈ t) ∧
      a.2 ≤ (t.foldl (fun acc y => if acc.2 ≤ y.2 then y else acc) a).2 ∧
      (∀ y ∈ t, y.2 ≤ (t.foldl (fun acc y => if acc.2 ≤ y.2 then y else acc) a).2) ∧
      (∀ y ∈ a :: t, y.2 = (t.foldl (fun acc y => if acc.2 ≤ y.2 then y else acc) a).2 →
        t.foldl (fun acc y => if acc.2 ≤ y.2 then y else acc) a = y ∨
          R y (t.foldl (fun acc y => if acc.2 ≤ y.2 then y else acc) a)) := by
  intro t
  induction t with
  | nil =>
    intro a _
    refine ⟨Or.inl rfl, le_refl _, by simp, ?_⟩
    intro y hy hv
    rcases List.mem_singleton.mp hy with rfl
    exact Or.inl rfl
  | cons b t2 ih =>
    intro a hpw
    rw [List.foldl_cons]
    have hpw2 : (b :: t2).Pairwise R := hpw.of_cons
    have hRab : R a b := (List.pairwise_cons.mp hpw).1 b (List.mem_cons_self b t2)
    have hRat2 : ∀ y ∈ t2, R a y := fun y hy =>
      (List.pairwise_cons.mp hpw).1 y (List.mem_cons_of_mem b hy)
    by_cases hle' : a.2 ≤ b.2
    · rw [if_pos hle']
      obtain ⟨hmem, hbz, hall, htie⟩ := ih b hpw2
      refine ⟨?_, le_trans hle' hbz, ?_, ?_⟩
      · rcases hmem with h | h
        · exact Or.inr (by rw [h]; exact List.mem_cons_self b t2)
        · exact Or.inr (List.mem_cons_of_mem b h)
      · intro y hy
        rcases List.mem_cons.mp hy with rfl | hy2
        · exact hbz
        · exact hall y hy2
      · intro y hy hv
        rcases List.mem_cons.mp hy with rfl | hy2
        · rcases hmem with h | h
          · exact Or.inr (by rw [h]; exact hRab)
          · exact Or.inr (hRat2 _ h)
        · exact htie y hy2 hv
    · rw [if_neg hle']
      push_neg at hle'
      have hpw3 : (a :: t2).Pairwise R := by
        rw [List.pairwise_cons]
        exact ⟨hRat2, hpw2.of_cons⟩
      obtain ⟨hmem, haz, hall, htie⟩ := ih a hpw3
      refine ⟨?_, haz, ?_, ?_⟩
      · rcases hmem with h | h
        · exact Or.inl h
        · exact Or.inr (List.mem_cons_of_mem b h)
      · intro y hy
        rcases List.mem_cons.mp hy with rfl | hy2
        · exact le_trans (le_of_lt hle') haz
        · exact hall y hy2
      · intro y hy hv
        rcases List.mem_cons.mp hy with rfl | hy2
        · exact htie _ (List.mem_cons_self _ t2) hv
        · rcases List.mem_cons.mp hy2 with rfl | hy3
          · exact absurd (hv ▸ lt_of_lt_of_le hle' haz) (lt_irrefl _)
          · exact htie y (List.mem_cons_of_mem a hy3) hv

lemma minByKeyVal_spec {α : Type} (R : α × ℚ → α × ℚ → Prop) (l : List (α × ℚ))
    (hpw : l.Pairwise R) (x : α × ℚ) (h : minByKeyVal l = some x) :
    x ∈ l ∧ (∀ y ∈ l, x.2 ≤ y.2) ∧ (∀ y ∈ l, y.2 = x.2 → x = y ∨ R x y) := by
  cases l with
  | nil => exact Option.noConfusion h
  | cons a t =>
    have hx : x = t.foldl (fun acc y => if y.2 < acc.2 then y else acc) a := by
      have : minByKeyVal (a :: t) = some (t.foldl (fun acc y => if y.2 < acc.2 then y else acc) a) := rfl
      rw [this] at h
      exact (Option.some.injEq _ _ ▸ h).symm
    obtain ⟨hmem, hle, hall, hfst, htie⟩ := minFoldl_spec R t a hpw
    subst hx
    refine ⟨?_, ?_, htie⟩
    · rcases hmem with h2 | h2
      · rw [h2]; exact List.mem_cons_self a t
      · exact List.mem_cons_of_mem a h2
    · intro y hy
      rcases List.mem_cons.mp hy with rfl | hy2
      · exact hle
      · exact hall y hy2

lemma maxByKeyVal_spec {α : Type} (R : α × ℚ → α × ℚ → Prop) (l : List (α × ℚ))
    (hpw : l.Pairwise R) (x : α × ℚ) (h : maxByKeyVal l = some x) :
    x ∈ l ∧ (∀ y ∈ l, y.2 ≤ x.2) ∧ (∀ y ∈ l, y.2 = x.2 → x = y ∨ R y x) := by
  cases l with
  | nil => exact Option.noConfusion h
  | cons a t =>
    have hx : x = t.foldl (fun acc y => if acc.2 ≤ y.2 then y else acc) a := by
      have : maxByKeyVal (a :: t) = some (t.foldl (fun acc y => if acc.2 ≤ y.2 then y else acc) a) := rfl
      rw [this] at h
      exact (Option.some.injEq _ _ ▸ h).symm
    obtain ⟨hmem, haz, hall, htie⟩ := maxFoldl_spec R t a hpw
    subst hx
    refine ⟨?_, ?_, htie⟩
    · rcases hmem with h2 | h2
      · rw [h2]; exact List.mem_cons_self a t
      · exact List.mem_cons_of_mem a h2
    · intro y hy
      rcases List.mem_cons.mp hy with rfl | hy2
      · exact haz
      · exact hall y hy2

lemma sweep_eq_sweepSpec (topo : Topology) (bench : Bench) (cores : List CoreId) (ni ns : Nat)
    (h : ∀ p ∈ pairsList cores.length, stepOk topo bench cores ni ns p = true) :
    sweep topo bench cores ni ns ⟨fun _ _ _ => none, []⟩ =
      .ok (sweepSpec topo bench cores ni ns) := by
  unfold sweep sweepSpec
  exact foldlM_except_congr _ _ _
    (fun p hp st => pairStep_eq_stepSpec topo bench cores ni ns st p (h p hp)) _

lemma sweep_ok_forall (topo : Topology) (bench : Bench) (cores : List CoreId) (ni ns : Nat)
    (st st2 : SweepState) (h : sweep topo bench cores ni ns st = .ok st2) :
    ∀ p ∈ pairsList cores.length, stepOk topo bench cores ni ns p = true :=
  foldlM_except_ok_forall _ _
    (fun st p st2 hp => pairStep_ok_stepOk topo bench cores ni ns st p st2 hp) _ st st2 h

lemma sweepSpec_tensor_eq (topo : Topology) (bench : Bench) (cores : List CoreId) (ni ns : Nat) :
    (sweepSpec topo bench cores ni ns).tensor = finalTensor bench cores ni ns := by
  funext a b s
  exact sweepSpec_tensor topo bench cores ni ns a b s

/-- The first pair the sweep measures: `(1, 0)` for a symmetric primitive,
`(0, 1)` otherwise (it exists whenever there are at least two cores). -/
def firstPair (symmetric : Bool) : Nat × Nat :=
  if symmetric then (1, 0) else (0, 1)

lemma firstPair_measured (s : Bool) :
    measured s (firstPair s).1 (firstPair s).2 = true := by
  cases s <;> rfl

lemma firstPair_mem (s : Bool) (n : Nat) (h : 2 ≤ n) : firstPair s ∈ pairsList n := by
  apply mem_pairsList.mpr
  cases s <;> simp [firstPair] <;> omega

lemma stepOk_parts (topo : Topology) (bench : Bench) (cores : List CoreId) (ni ns : Nat)
    (p : Nat × Nat) (hm : measured bench.is_symmetric p.1 p.2 = true)
    (h : stepOk topo bench cores ni ns p = true) :
    (∃ nodes, nodesetLookup topo (coreAt cores p.1) = some nodes ∧
      topo.bind_memory_ok nodes .Bind ⟨true, true⟩ = true) ∧
    1 + ns ≤ (bench.run (coreAt cores p.1, coreAt cores p.2) ni (1 + ns)).length ∧ 1 ≤ ns := by
  unfold stepOk at h
  simp only [hm, Bool.not_true, Bool.false_or, Bool.and_eq_true, decide_eq_true_eq] at h
  obtain ⟨⟨h1, h2⟩, h3⟩ := h
  refine ⟨?_, h2, h3⟩
  cases hnl : nodesetLookup topo (coreAt cores p.1) with
  | none => rw [hnl] at h1; exact absurd h1 (by simp)
  | some nodes => rw [hnl] at h1; exact ⟨nodes, rfl, h1⟩

lemma validMeans_finalTensor_ne_nil (topo : Topology) (bench : Bench) (cores : List CoreId)
    (ni ns : Nat) (hn : 2 ≤ cores.length) (hns : 1 ≤ ns)
    (hall : ∀ p ∈ pairsList cores.length, stepOk topo bench cores ni ns p = true) :
    validMeans (finalTensor bench cores ni ns) cores.length ns ≠ [] := by
  have hfp := firstPair_mem bench.is_symmetric cores.length hn
  have hm := firstPair_measured bench.is_symmetric
  have hparts := stepOk_parts topo bench cores ni ns _ hm (hall _ hfp)
  have hb := mem_pairsList.mp hfp
  apply List.ne_nil_of_mem
    (a := (firstPair bench.is_symmetric, pairMeanF bench cores ni ns (firstPair bench.is_symmetric)))
  exact mem_validMeans.mpr ⟨hb.1, hb.2,
    meanCells_finalTensor_measured bench cores ni ns _ _ hm hb.1 hb.2 hns hparts.2.1⟩

lemma flatten3_filterMap_ne_nil (bench : Bench) (cores : List CoreId)
    (ni ns : Nat) (hn : 2 ≤ cores.length) (hns : 1 ≤ ns) :
    (flatten3 (finalTensor bench cores ni ns) cores.length ns).filterMap id ≠ [] := by
  have hfp := firstPair_mem bench.is_symmetric cores.length hn
  have hm := firstPair_measured bench.is_symmetric
  have hb := mem_pairsList.mp hfp
  have hcell : finalTensor bench cores ni ns
      (firstPair bench.is_symmetric).1 (firstPair bench.is_symmetric).2 0 =
      some (((bench.run (coreAt cores (firstPair bench.is_symmetric).1,
        coreAt cores (firstPair bench.is_symmetric).2) ni (1 + ns)).drop 1).getD 0 0) := by
    unfold finalTensor
    rw [if_pos ⟨hm, hb.1, hb.2, hns⟩]
  apply List.ne_nil_of_mem
    (a := ((bench.run (coreAt cores (firstPair bench.is_symmetric).1,
      coreAt cores (firstPair bench.is_symmetric).2) ni (1 + ns)).drop 1).getD 0 0)
  rw [List.mem_filterMap]
  refine ⟨some (((bench.run (coreAt cores (firstPair bench.is_symmetric).1,
      coreAt cores (firstPair bench.is_symmetric).2) ni (1 + ns)).drop 1).getD 0 0), ?_, rfl⟩
  unfold flatten3
  rw [List.mem_flatMap]
  refine ⟨firstPair bench.is_symmetric, hfp, ?_⟩
  rw [← hcell]
  unfold slice3
  exact List.mem_map.mpr ⟨0, List.mem_range.mpr hns, rfl⟩

lemma run_bench_eq (topo : Topology) (cores : List CoreId) (args : CliArgs) (bench : Bench)
    (h : benchOk topo cores args bench = true) :
    run_bench topo cores args bench = .ok (reportSpec topo cores args bench) := by
  unfold benchOk at h
  simp only [Bool.and_eq_true, decide_eq_true_eq, List.all_eq_true] at h
  obtain ⟨⟨hn, hns⟩, hall⟩ := h
  have hLne := validMeans_finalTensor_ne_nil topo bench cores args.num_iterations args.num_samples hn hns hall
  have hFne := flatten3_filterMap_ne_nil bench cores args.num_iterations args.num_samples hn hns
  obtain ⟨mE, hminE⟩ := Option.isSome_iff_exists.mp (minByKeyVal_isSome _ hLne)
  obtain ⟨xE, hmaxE⟩ := Option.isSome_iff_exists.mp (maxByKeyVal_isSome _ hLne)
  unfold run_bench reportSpec
  rw [if_neg (by omega)]
  rw [sweep_eq_sweepSpec topo bench cores args.num_iterations args.num_samples hall]
  dsimp only
  rw [if_neg (by omega)]
  rw [sweepSpec_tensor_eq, hminE, hmaxE]
  dsimp only
  rw [if_neg (by simpa using hFne)]
  simp only [Option.getD_some]

lemma run_bench_ok (topo : Topology) (cores : List CoreId) (args : CliArgs) (bench : Bench)
    (r : Report) (h : run_bench topo cores args bench = .ok r) :
    benchOk topo cores args bench = true ∧ r = reportSpec topo cores args bench := by
  have hbo : benchOk topo cores args bench = true := by
    unfold run_bench at h
    by_cases hn : cores.length < 2
    · rw [if_pos hn] at h; exact Except.noConfusion h
    · rw [if_neg hn] at h
      cases hsw : sweep topo bench cores args.num_iterations args.num_samples ⟨fun _ _ _ => none, []⟩ with
      | error e => rw [hsw] at h; exact Except.noConfusion h
      | ok st =>
        rw [hsw] at h
        dsimp only at h
        have hall := sweep_ok_forall topo bench cores args.num_iterations args.num_samples _ _ hsw
        by_cases hns : args.num_samples = 0
        · rw [if_pos hns] at h; exact Except.noConfusion h
        · unfold benchOk
          simp only [Bool.and_eq_true, decide_eq_true_eq, List.all_eq_true]
          exact ⟨⟨by omega, by omega⟩, hall⟩
  refine ⟨hbo, ?_⟩
  have heq := run_bench_eq topo cores args bench hbo
  rw [heq] at h
  injection h with h2
  exact h2.symm

/-! ## Concrete instances used by the closed witnesses and counterexamples -/

/-- A demo topology: every PU lookup succeeds (core `i` owns nodeset `[i]`)
and every bind call is accepted. -/
def demoTopo : Topology :=
  ⟨fun i => some ⟨some [i]⟩, fun _ _ _ => true⟩

/-- A topology whose bind call always fails. -/
def demoTopoBadBind : Topology :=
  ⟨fun i => some ⟨some [i]⟩, fun _ _ _ => false⟩

def demoCores1 : List CoreId := [⟨0⟩]

def demoCores2 : List CoreId := [⟨0⟩, ⟨1⟩]

def demoCores3 : List CoreId := [⟨0⟩, ⟨1⟩, ⟨2⟩]

/-- Two samples per pair, one iteration, CSV requested. -/
def demoArgs : CliArgs := ⟨2, 1, true⟩

/-- The per-pair latency of the three-core demo: pairs `(1,0)` and `(2,0)`
tie at 100 ns and pair `(2,1)` sits at 50 ns. -/
def demoLatency (p : CoreId × CoreId) : ℚ :=
  if p.1.id = 1 ∧ p.2.id = 0 then 100
  else if p.1.id = 2 ∧ p.2.id = 0 then 100
  else if p.1.id = 2 ∧ p.2.id = 1 then 50
  else 0

/-- A symmetric bench returning the demo latency for every repetition. -/
def demoBench3 : Bench :=
  { run := fun p _ k => List.replicate k (demoLatency p) }

/-- A symmetric bench whose two recorded samples (after the warm-up value 7)
are 0 and 300, giving a sample standard deviation above the 99 display clamp. -/
def demoBenchClamp : Bench :=
  { run := fun _ _ _ => [7, 0, 300] }

/-- A bench that violates the length contract: it returns no samples. -/
def demoBenchShort : Bench :=
  { run := fun _ _ _ => [] }

/-! ## The claims -/

/-- C7: if `run_bench` is given fewer than 2 core identifiers, the
`assert!(n_cores >= 2)` fails before any measurement, any memory-binding
call, or any tensor write: the run aborts with an empty side-effect trace
(the tensor was only ever initialised to NaN). -/
theorem c7_few_cores_fatal (topo : Topology) (cores : List CoreId) (args : CliArgs)
    (bench : Bench) (h : cores.length < 2) :
    run_bench topo cores args bench = .error [] := by
  unfold run_bench
  rw [if_pos h]

/-- C7 witness: a single-core run aborts with the empty trace. -/
theorem c7_few_cores_fatal_witness :
    run_bench demoTopo demoCores1 demoArgs demoBench3 = .error [] :=
  c7_few_cores_fatal demoTopo demoCores1 demoArgs demoBench3 (by decide)

/-- C10: with at least two cores and `num_samples == 0`, `run_bench` always
panics (the `values.mean().unwrap()` of the first measured pair's empty
sample slice) instead of producing a report, whatever the topology and
bench. -/
theorem c10_zero_samples_panics (topo : Topology) (cores : List CoreId) (args : CliArgs)
    (bench : Bench) (_hn : 2 ≤ cores.length) (hns : args.num_samples = 0) :
    exceptOk (run_bench topo cores args bench) = false := by
  cases hr : run_bench topo cores args bench with
  | error e => rfl
  | ok r =>
    obtain ⟨hbo, -⟩ := run_bench_ok topo cores args bench r hr
    unfold benchOk at hbo
    simp only [Bool.and_eq_true, decide_eq_true_eq, List.all_eq_true] at hbo
    omega

/-- C10 witness: two cores, zero samples, a well-behaved bench: still a panic. -/
theorem c10_zero_samples_panics_witness :
    exceptOk (run_bench demoTopo demoCores2 ⟨0, 1, false⟩ demoBench3) = false :=
  c10_zero_samples_panics demoTopo demoCores2 ⟨0, 1, false⟩ demoBench3 (by decide) rfl

/-- C9: whenever the `Bench` implementation breaks its length contract on
some measured pair — `run` returns fewer than `1 + samples` durations —
`run_bench` panics (the slice `&durations[1..]` or the `durations[s]` read
is out of bounds) and produces no report. -/
theorem c9_short_run_panics (topo : Topology) (cores : List CoreId) (args : CliArgs)
    (bench : Bench) (p : Nat × Nat) (hp : p ∈ pairsList cores.length)
    (hm : measured bench.is_symmetric p.1 p.2 = true)
    (hshort : (bench.run (coreAt cores p.1, coreAt cores p.2) args.num_iterations
      (1 + args.num_samples)).length < 1 + args.num_samples) :
    exceptOk (run_bench topo cores args bench) = false := by
  cases hr : run_bench topo cores args bench with
  | error e => rfl
  | ok r =>
    obtain ⟨hbo, -⟩ := run_bench_ok topo cores args bench r hr
    unfold benchOk at hbo
    simp only [Bool.and_eq_true, decide_eq_true_eq, List.all_eq_true] at hbo
    have := stepOk_parts topo bench cores args.num_iterations args.num_samples p hm
      (hbo.2 p hp)
    omega

/-- C9 witness: a bench returning the empty vector panics the run. -/
theorem c9_short_run_panics_witness :
    exceptOk (run_bench demoTopo demoCores2 demoArgs demoBenchShort) = false :=
  c9_short_run_panics demoTopo demoCores2 demoArgs demoBenchShort (1, 0)
    (by decide) (by decide) (by decide)

lemma reportSpec_tensor (topo : Topology) (cores : List CoreId) (args : CliArgs) (bench : Bench) :
    (reportSpec topo cores args bench).tensor =
      finalTensor bench cores args.num_iterations args.num_samples :=
  sweepSpec_tensor_eq topo bench cores args.num_iterations args.num_samples

lemma reportSpec_events (topo : Topology) (cores : List CoreId) (args : CliArgs) (bench : Bench) :
    (reportSpec topo cores args bench).events =
      ((pairsList cores.length).filter (fun p => measured bench.is_symmetric p.1 p.2)).flatMap
        (chunkOf topo bench cores args.num_iterations args.num_samples) :=
  sweepSpec_events topo bench cores args.num_iterations args.num_samples

lemma measured_true_iff (symmetric : Bool) (i j : Nat) :
    measured symmetric i j = true ↔ (if symmetric = true then j < i else i ≠ j) := by
  unfold measured
  cases symmetric
  · simp
  · simp [Nat.not_le]

/-- C1: after a completed `run_bench` on `n ≥ 2` cores, the tensor that was
initialised everywhere to NaN is filled exactly on the strict lower triangle
(`j < i`, every sample index) when the primitive is symmetric, and exactly
off the diagonal (`i ≠ j`) when it is not; all other in-range cells are
still NaN. -/
theorem c1_tensor_shape (topo : Topology) (cores : List CoreId) (args : CliArgs)
    (bench : Bench) (r : Report) (h : run_bench topo cores args bench = .ok r)
    (i j s : Nat) (hi : i < cores.length) (hj : j < cores.length)
    (hs : s < args.num_samples) :
    (r.tensor i j s).isSome =
      (if bench.is_symmetric = true then decide (j < i) else decide (i ≠ j)) := by
  obtain ⟨-, rfl⟩ := run_bench_ok topo cores args bench r h
  rw [reportSpec_tensor]
  unfold finalTensor
  by_cases hm : measured bench.is_symmetric i j = true
  · rw [if_pos ⟨hm, hi, hj, hs⟩]
    rw [measured_true_iff] at hm
    cases hsym : bench.is_symmetric
    · rw [hsym] at hm; rw [if_neg (by simp)] at hm; simp [hm]
    · rw [hsym] at hm; rw [if_pos rfl] at hm; simp [hm]
  · rw [if_neg (fun hc => hm hc.1)]
    rw [measured_true_iff] at hm
    cases hsym : bench.is_symmetric
    · rw [hsym] at hm; rw [if_neg (by simp)] at hm; simp [hm]
    · rw [hsym] at hm; rw [if_pos rfl] at hm; simp [hm]

/-- C1 witness: in the three-core symmetric demo run, cell (2,1,0) is measured. -/
theorem c1_tensor_shape_witness :
    (((reportSpec demoTopo demoCores3 demoArgs demoBench3).tensor 2 1 0).isSome) =
      (if demoBench3.is_symmetric = true then decide ((1 : Nat) < 2) else decide ((2 : Nat) ≠ 1)) :=
  c1_tensor_shape demoTopo demoCores3 demoArgs demoBench3 _
    (run_bench_eq demoTopo demoCores3 demoArgs demoBench3 (by decide)) 2 1 0
    (by decide) (by decide) (by decide)

/-- C3: for every non-skipped pair `(i, j)` of a completed run, `Bench::run`
was invoked with `1 + samples` total repetitions, the returned value at
index 0 was discarded as warm-up, and cell `(i, j, s)` holds exactly the
returned value at index `1 + s`, in order, for `s < samples`. -/
theorem c3_warmup_discard (topo : Topology) (cores : List CoreId) (args : CliArgs)
    (bench : Bench) (r : Report) (h : run_bench topo cores args bench = .ok r)
    (i j : Nat) (hi : i < cores.length) (hj : j < cores.length)
    (hm : measured bench.is_symmetric i j = true) :
    Event.run i j args.num_iterations (1 + args.num_samples) ∈ r.events ∧
    ∀ s, s < args.num_samples →
      r.tensor i j s =
        (bench.run (coreAt cores i, coreAt cores j) args.num_iterations
          (1 + args.num_samples))[1 + s]? := by
  obtain ⟨hbo, rfl⟩ := run_bench_ok topo cores args bench r h
  unfold benchOk at hbo
  simp only [Bool.and_eq_true, decide_eq_true_eq, List.all_eq_true] at hbo
  obtain ⟨⟨hn, hns⟩, hall⟩ := hbo
  have hparts := stepOk_parts topo bench cores args.num_iterations args.num_samples (i, j) hm
    (hall _ (mem_pairsList.mpr ⟨hi, hj⟩))
  have hlen2 : 1 + args.num_samples ≤ (bench.run (coreAt cores i, coreAt cores j)
      args.num_iterations (1 + args.num_samples)).length := hparts.2.1
  constructor
  · rw [reportSpec_events, List.mem_flatMap]
    refine ⟨(i, j), List.mem_filter.mpr ⟨mem_pairsList.mpr ⟨hi, hj⟩, hm⟩, ?_⟩
    unfold chunkOf
    exact List.mem_cons_of_mem _ (List.mem_cons_self _ _)
  · intro s hs
    rw [reportSpec_tensor]
    unfold finalTensor
    rw [if_pos ⟨hm, hi, hj, hs⟩]
    have hlen : s < ((bench.run (coreAt cores i, coreAt cores j) args.num_iterations
        (1 + args.num_samples)).drop 1).length := by
      rw [List.length_drop]
      omega
    rw [List.getD_eq_getElem _ 0 hlen, ← List.getElem?_eq_getElem hlen, List.getElem?_drop]

/-- C3 witness: in the three-core demo the pair (1,0) was run with 3 = 1 + 2
repetitions and its stored samples are the returned values at indices 1, 2. -/
theorem c3_warmup_discard_witness :
    Event.run 1 0 demoArgs.num_iterations (1 + demoArgs.num_samples) ∈
      (reportSpec demoTopo demoCores3 demoArgs demoBench3).events ∧
    ∀ s, s < demoArgs.num_samples →
      (reportSpec demoTopo demoCores3 demoArgs demoBench3).tensor 1 0 s =
        (demoBench3.run (coreAt demoCores3 1, coreAt demoCores3 0) demoArgs.num_iterations
          (1 + demoArgs.num_samples))[1 + s]? :=
  c3_warmup_discard demoTopo demoCores3 demoArgs demoBench3 _
    (run_bench_eq demoTopo demoCores3 demoArgs demoBench3 (by decide)) 1 0
    (by decide) (by decide) (by decide)

/-- The index pair an event belongs to. -/
def eventPair : Event → Nat × Nat
  | .bind i j _ _ _ => (i, j)
  | .run i j _ _ => (i, j)
  | .cell i j _ _ => (i, j)

/-- C8: in a completed run, every non-skipped pair `(i, j)` was preceded by a
successful memory-binding call — the PU and nodeset lookups for core `i`
succeeded, `bind_memory` was called on that nodeset with the `Bind` policy
and the strict + migrate flags and succeeded, and the bind event sits
immediately before the pair's `Bench::run` event; skipped cells produce no
events at all.  And if for some measured in-range pair the PU/nodeset lookup
fails or the strict migrating bind call fails, `run_bench` aborts instead of
completing. -/
theorem c8_memory_bind (topo : Topology) (cores : List CoreId) (args : CliArgs) (bench : Bench) :
    (∀ r, run_bench topo cores args bench = .ok r →
      (∀ i j, i < cores.length → j < cores.length →
        measured bench.is_symmetric i j = true →
        ∃ nodes, nodesetLookup topo (coreAt cores i) = some nodes ∧
          topo.bind_memory_ok nodes .Bind ⟨true, true⟩ = true ∧
          [Event.bind i j nodes .Bind ⟨true, true⟩,
            Event.run i j args.num_iterations (1 + args.num_samples)] <:+: r.events) ∧
      (∀ i j, measured bench.is_symmetric i j = false →
        ∀ e ∈ r.events, eventPair e ≠ (i, j))) ∧
    (∀ i j, i < cores.length → j < cores.length → measured bench.is_symmetric i j = true →
      (nodesetLookup topo (coreAt cores i) = none ∨
        ∀ nodes, nodesetLookup topo (coreAt cores i) = some nodes →
          topo.bind_memory_ok nodes .Bind ⟨true, true⟩ = false) →
      exceptOk (run_bench topo cores args bench) = false) := by
  constructor
  · intro r hr
    obtain ⟨hbo, rfl⟩ := run_bench_ok topo cores args bench r hr
    unfold benchOk at hbo
    simp only [Bool.and_eq_true, decide_eq_true_eq, List.all_eq_true] at hbo
    obtain ⟨⟨hn, hns⟩, hall⟩ := hbo
    constructor
    · intro i j hi hj hm
      have hparts := stepOk_parts topo bench cores args.num_iterations args.num_samples (i, j)
        hm (hall _ (mem_pairsList.mpr ⟨hi, hj⟩))
      obtain ⟨⟨nodes, hnl, hbind⟩, -, -⟩ := hparts
      refine ⟨nodes, hnl, hbind, ?_⟩
      rw [reportSpec_events]
      have hmemF : (i, j) ∈ (pairsList cores.length).filter
          (fun p => measured bench.is_symmetric p.1 p.2) :=
        List.mem_filter.mpr ⟨mem_pairsList.mpr ⟨hi, hj⟩, hm⟩
      obtain ⟨l1, l2, hsplit⟩ := List.append_of_mem hmemF
      rw [hsplit, List.flatMap_append, List.flatMap_cons]
      have hchunk : chunkOf topo bench cores args.num_iterations args.num_samples (i, j) =
          [Event.bind i j nodes .Bind ⟨true, true⟩,
           Event.run i j args.num_iterations (1 + args.num_samples),
           Event.cell i j (pairMeanF bench cores args.num_iterations args.num_samples (i, j))
             (sampleVarNd (pairSamplesF bench cores args.num_iterations args.num_samples (i, j)))] := by
        unfold chunkOf
        rw [hnl]
        rfl
      rw [hchunk]
      refine ⟨l1.flatMap (chunkOf topo bench cores args.num_iterations args.num_samples),
        [Event.cell i j (pairMeanF bench cores args.num_iterations args.num_samples (i, j))
          (sampleVarNd (pairSamplesF bench cores args.num_iterations args.num_samples (i, j)))] ++
          l2.flatMap (chunkOf topo bench cores args.num_iterations args.num_samples), ?_⟩
      simp [List.append_assoc]
    · intro i j hm e he hpair
      rw [reportSpec_events, List.mem_flatMap] at he
      obtain ⟨q, hq, heq⟩ := he
      have hqm := (List.mem_filter.mp hq).2
      have hpq : eventPair e = q := by
        unfold chunkOf at heq
        rcases List.mem_cons.mp heq with rfl | heq2
        · rfl
        · rcases List.mem_cons.mp heq2 with rfl | heq3
          · rfl
          · rcases List.mem_cons.mp heq3 with rfl | heq4
            · rfl
            · exact absurd heq4 (List.not_mem_nil e)
      rw [hpq] at hpair
      rw [hpair] at hqm
      rw [hm] at hqm
      exact Bool.noConfusion hqm
  · intro i j hi hj hm hbad
    cases hr : run_bench topo cores args bench with
    | error e => rfl
    | ok r =>
      obtain ⟨hbo, -⟩ := run_bench_ok topo cores args bench r hr
      unfold benchOk at hbo
      simp only [Bool.and_eq_true, decide_eq_true_eq, List.all_eq_true] at hbo
      have hparts := stepOk_parts topo bench cores args.num_iterations args.num_samples (i, j)
        hm (hbo.2 _ (mem_pairsList.mpr ⟨hi, hj⟩))
      obtain ⟨⟨nodes, hnl, hbind⟩, -, -⟩ := hparts
      rcases hbad with hb1 | hb2
      · rw [hnl] at hb1
        exact Option.noConfusion hb1
      · have hb := hb2 nodes hnl
        rw [hb] at hbind
        exact Bool.noConfusion hbind

lemma filterMap_slice3_finalTensor (topo : Topology) (bench : Bench) (cores : List CoreId)
    (ni ns : Nat) (p : Nat × Nat) (hp1 : p.1 < cores.length) (hp2 : p.2 < cores.length)
    (hok : stepOk topo bench cores ni ns p = true) :
    (slice3 (finalTensor bench cores ni ns) p.1 p.2 ns).filterMap id =
      if measured bench.is_symmetric p.1 p.2 = true
      then pairSamplesF bench cores ni ns p else [] := by
  by_cases hm : measured bench.is_symmetric p.1 p.2 = true
  · rw [if_pos hm]
    obtain ⟨-, hlen, -⟩ := stepOk_parts topo bench cores ni ns p hm hok
    rw [slice3_finalTensor_measured bench cores ni ns p.1 p.2 hm hp1 hp2]
    rw [filterMap_id_map_some, map_getD_range_eq_take _ _ (by rw [List.length_drop]; omega)]
    rfl
  · rw [if_neg hm]
    rw [List.filterMap_eq_nil_iff]
    intro c hc
    unfold slice3 at hc
    obtain ⟨s, hs, rfl⟩ := List.mem_map.mp hc
    show finalTensor bench cores ni ns p.1 p.2 s = none
    unfold finalTensor
    rw [if_neg (fun hcon => hm hcon.1)]

lemma flatten3_filterMap_eq (topo : Topology) (bench : Bench) (cores : List CoreId) (ni ns : Nat)
    (hall : ∀ p ∈ pairsList cores.length, stepOk topo bench cores ni ns p = true) :
    (flatten3 (finalTensor bench cores ni ns) cores.length ns).filterMap id =
      ((pairsList cores.length).filter (fun p => measured bench.is_symmetric p.1 p.2)).flatMap
        (pairSamplesF bench cores ni ns) := by
  unfold flatten3
  have key : ∀ l : List (Nat × Nat), (∀ p ∈ l, p ∈ pairsList cores.length) →
      (l.flatMap (fun p => slice3 (finalTensor bench cores ni ns) p.1 p.2 ns)).filterMap id =
        (l.filter (fun p => measured bench.is_symmetric p.1 p.2)).flatMap
          (pairSamplesF bench cores ni ns) := by
    intro l
    induction l with
    | nil => intro _; rfl
    | cons q t ih =>
      intro hsub
      rw [List.flatMap_cons, List.filterMap_append, List.filter_cons]
      have hq := hsub q (List.mem_cons_self q t)
      have hb := mem_pairsList.mp hq
      rw [filterMap_slice3_finalTensor topo bench cores ni ns q hb.1 hb.2 (hall q hq)]
      rw [ih (fun p hp => hsub p (List.mem_cons_of_mem q hp))]
      by_cases hm : measured bench.is_symmetric q.1 q.2 = true
      · rw [if_pos hm, if_pos hm, List.flatMap_cons]
      · rw [if_neg hm, if_neg hm, List.nil_append]
  exact key _ (fun p hp => hp)

lemma reportSpec_meanLatency (topo : Topology) (cores : List CoreId) (args : CliArgs)
    (bench : Bench) :
    (reportSpec topo cores args bench).meanLatency =
      ((flatten3 (finalTensor bench cores args.num_iterations args.num_samples)
        cores.length args.num_samples).filterMap id).sum /
      (((flatten3 (finalTensor bench cores args.num_iterations args.num_samples)
        cores.length args.num_samples).filterMap id).length : ℚ) := by
  unfold reportSpec
  dsimp only
  rw [sweepSpec_tensor_eq]

/-- C5: the reported global mean latency of a completed run is the arithmetic
mean of every non-NaN sample of the tensor (flattened across all pairs and
sample indices, NaN cells filtered out), i.e. of exactly the stored samples
of the measured pairs; the mean-latency line carries no standard error — the
`Report` has a bare `meanLatency` value, mirroring the single printed
number. -/
theorem c5_global_mean (topo : Topology) (cores : List CoreId) (args : CliArgs)
    (bench : Bench) (r : Report) (h : run_bench topo cores args bench = .ok r) :
    r.meanLatency =
      (((pairsList cores.length).filter (fun p => measured bench.is_symmetric p.1 p.2)).flatMap
        (pairSamplesF bench cores args.num_iterations args.num_samples)).sum /
      ((((pairsList cores.length).filter (fun p => measured bench.is_symmetric p.1 p.2)).flatMap
        (pairSamplesF bench cores args.num_iterations args.num_samples)).length : ℚ) ∧
    (flatten3 r.tensor cores.length args.num_samples).filterMap id =
      ((pairsList cores.length).filter (fun p => measured bench.is_symmetric p.1 p.2)).flatMap
        (pairSamplesF bench cores args.num_iterations args.num_samples) := by
  obtain ⟨hbo, rfl⟩ := run_bench_ok topo cores args bench r h
  unfold benchOk at hbo
  simp only [Bool.and_eq_true, decide_eq_true_eq, List.all_eq_true] at hbo
  have hflat := flatten3_filterMap_eq topo bench cores args.num_iterations args.num_samples hbo.2
  constructor
  · rw [reportSpec_meanLatency, hflat]
  · rw [reportSpec_tensor, hflat]

/-- C5 witness: the three-core demo's mean latency is the mean of the six
stored samples. -/
theorem c5_global_mean_witness :
    (reportSpec demoTopo demoCores3 demoArgs demoBench3).meanLatency =
      (((pairsList demoCores3.length).filter
          (fun p => measured demoBench3.is_symmetric p.1 p.2)).flatMap
        (pairSamplesF demoBench3 demoCores3 demoArgs.num_iterations demoArgs.num_samples)).sum /
      ((((pairsList demoCores3.length).filter
          (fun p => measured demoBench3.is_symmetric p.1 p.2)).flatMap
        (pairSamplesF demoBench3 demoCores3 demoArgs.num_iterations demoArgs.num_samples)).length : ℚ) ∧
    (flatten3 (reportSpec demoTopo demoCores3 demoArgs demoBench3).tensor
        demoCores3.length demoArgs.num_samples).filterMap id =
      ((pairsList demoCores3.length).filter
          (fun p => measured demoBench3.is_symmetric p.1 p.2)).flatMap
        (pairSamplesF demoBench3 demoCores3 demoArgs.num_iterations demoArgs.num_samples) :=
  c5_global_mean demoTopo demoCores3 demoArgs demoBench3 _
    (run_bench_eq demoTopo demoCores3 demoArgs demoBench3 (by decide))

lemma reportSpec_csv (topo : Topology) (cores : List CoreId) (args : CliArgs) (bench : Bench) :
    (reportSpec topo cores args bench).csv =
      if args.csv then
        some ((List.range cores.length).map (fun i => (List.range cores.length).map (fun j =>
          meanCells (slice3 (finalTensor bench cores args.num_iterations args.num_samples) i j
            args.num_samples))))
      else none := by
  unfold reportSpec
  dsimp only
  rw [sweepSpec_tensor_eq]

/-- C6: when CSV mode is requested, a completed run writes to the primary
output stream (the `csv` field of the report, separate from the diagnostic
events) exactly `n` rows in core-index order; row `i` has `n` fields in
core-index order of `j`, and the field for `(i, j)` is the pair's mean over
the sample axis when the cell was measured and the empty field (`none`) when
the cell is NaN. -/
theorem c6_csv_matrix (topo : Topology) (cores : List CoreId) (args : CliArgs)
    (bench : Bench) (r : Report) (h : run_bench topo cores args bench = .ok r)
    (hcsv : args.csv = true) :
    r.csv = some ((List.range cores.length).map (fun i => (List.range cores.length).map (fun j =>
      if measured bench.is_symmetric i j = true
      then some (pairMeanF bench cores args.num_iterations args.num_samples (i, j))
      else none))) := by
  obtain ⟨hbo, rfl⟩ := run_bench_ok topo cores args bench r h
  unfold benchOk at hbo
  simp only [Bool.and_eq_true, decide_eq_true_eq, List.all_eq_true] at hbo
  obtain ⟨⟨hn, hns⟩, hall⟩ := hbo
  rw [reportSpec_csv, if_pos hcsv]
  congr 1
  apply List.map_congr_left
  intro i hi
  apply List.map_congr_left
  intro j hj
  rw [List.mem_range] at hi hj
  by_cases hm : measured bench.is_symmetric i j = true
  · rw [if_pos hm]
    have hparts := stepOk_parts topo bench cores args.num_iterations args.num_samples (i, j) hm
      (hall _ (mem_pairsList.mpr ⟨hi, hj⟩))
    exact meanCells_finalTensor_measured bench cores args.num_iterations args.num_samples i j
      hm hi hj hns hparts.2.1
  · rw [if_neg hm]
    exact meanCells_finalTensor_unmeasured bench cores args.num_iterations args.num_samples i j
      (fun hc => hm hc.1)

/-- C6 witness: the CSV matrix of the three-core demo — row 0 empty, row 1
with one numeric field, row 2 with two. -/
theorem c6_csv_matrix_witness :
    (reportSpec demoTopo demoCores3 demoArgs demoBench3).csv =
      some ((List.range demoCores3.length).map (fun i =>
        (List.range demoCores3.length).map (fun j =>
          if measured demoBench3.is_symmetric i j = true
          then some (pairMeanF demoBench3 demoCores3 demoArgs.num_iterations
            demoArgs.num_samples (i, j))
          else none))) :=
  c6_csv_matrix demoTopo demoCores3 demoArgs demoBench3 _
    (run_bench_eq demoTopo demoCores3 demoArgs demoBench3 (by decide)) rfl

lemma reportSpec_min_max (topo : Topology) (cores : List CoreId) (args : CliArgs) (bench : Bench)
    (hbo : benchOk topo cores args bench = true) :
    ∃ mE xE,
      minByKeyVal (validMeans (finalTensor bench cores args.num_iterations args.num_samples)
        cores.length args.num_samples) = some mE ∧
      maxByKeyVal (validMeans (finalTensor bench cores args.num_iterations args.num_samples)
        cores.length args.num_samples) = some xE ∧
      (reportSpec topo cores args bench).minIdx = mE.1 ∧
      (reportSpec topo cores args bench).minMean = mE.2 ∧
      (reportSpec topo cores args bench).minCores =
        ((coreAt cores mE.1.1).id, (coreAt cores mE.1.2).id) ∧
      (reportSpec topo cores args bench).maxIdx = xE.1 ∧
      (reportSpec topo cores args bench).maxMean = xE.2 ∧
      (reportSpec topo cores args bench).maxCores =
        ((coreAt cores xE.1.1).id, (coreAt cores xE.1.2).id) ∧
      (reportSpec topo cores args bench).minVar =
        varCells (slice3 (finalTensor bench cores args.num_iterations args.num_samples)
          mE.1.1 mE.1.2 args.num_samples) ∧
      (reportSpec topo cores args bench).maxVar =
        varCells (slice3 (finalTensor bench cores args.num_iterations args.num_samples)
          xE.1.1 xE.1.2 args.num_samples) := by
  have hbo2 := hbo
  unfold benchOk at hbo2
  simp only [Bool.and_eq_true, decide_eq_true_eq, List.all_eq_true] at hbo2
  obtain ⟨⟨hn, hns⟩, hall⟩ := hbo2
  have hLne := validMeans_finalTensor_ne_nil topo bench cores args.num_iterations
    args.num_samples hn hns hall
  obtain ⟨mE, hminE⟩ := Option.isSome_iff_exists.mp (minByKeyVal_isSome _ hLne)
  obtain ⟨xE, hmaxE⟩ := Option.isSome_iff_exists.mp (maxByKeyVal_isSome _ hLne)
  refine ⟨mE, xE, hminE, hmaxE, ?_, ?_, ?_, ?_, ?_, ?_, ?_, ?_⟩ <;>
    (unfold reportSpec
     dsimp only
     rw [sweepSpec_tensor_eq]
     simp only [hminE, hmaxE, Option.getD_some])

lemma demo3_mean_10 :
    meanCells (slice3 (finalTensor demoBench3 demoCores3 demoArgs.num_iterations
      demoArgs.num_samples) 1 0 demoArgs.num_samples) = some 100 := by
  rw [meanCells_finalTensor_measured demoBench3 demoCores3 demoArgs.num_iterations
    demoArgs.num_samples 1 0 (by decide) (by decide) (by decide) (by decide) (by decide)]
  norm_num [pairMeanF, pairSamplesF, demoBench3, demoArgs, demoLatency, coreAt, demoCores3,
    List.replicate]

lemma demo3_mean_20 :
    meanCells (slice3 (finalTensor demoBench3 demoCores3 demoArgs.num_iterations
      demoArgs.num_samples) 2 0 demoArgs.num_samples) = some 100 := by
  rw [meanCells_finalTensor_measured demoBench3 demoCores3 demoArgs.num_iterations
    demoArgs.num_samples 2 0 (by decide) (by decide) (by decide) (by decide) (by decide)]
  norm_num [pairMeanF, pairSamplesF, demoBench3, demoArgs, demoLatency, coreAt, demoCores3,
    List.replicate]

lemma demo3_mean_21 :
    meanCells (slice3 (finalTensor demoBench3 demoCores3 demoArgs.num_iterations
      demoArgs.num_samples) 2 1 demoArgs.num_samples) = some 50 := by
  rw [meanCells_finalTensor_measured demoBench3 demoCores3 demoArgs.num_iterations
    demoArgs.num_samples 2 1 (by decide) (by decide) (by decide) (by decide) (by decide)]
  norm_num [pairMeanF, pairSamplesF, demoBench3, demoArgs, demoLatency, coreAt, demoCores3,
    List.replicate]

lemma demo3_validMeans :
    validMeans (finalTensor demoBench3 demoCores3 demoArgs.num_iterations demoArgs.num_samples)
      demoCores3.length demoArgs.num_samples =
      [((1, 0), 100), ((2, 0), 100), ((2, 1), 50)] := by
  have h00 := meanCells_finalTensor_unmeasured demoBench3 demoCores3 demoArgs.num_iterations
    demoArgs.num_samples 0 0 (by decide)
  have h01 := meanCells_finalTensor_unmeasured demoBench3 demoCores3 demoArgs.num_iterations
    demoArgs.num_samples 0 1 (by decide)
  have h02 := meanCells_finalTensor_unmeasured demoBench3 demoCores3 demoArgs.num_iterations
    demoArgs.num_samples 0 2 (by decide)
  have h11 := meanCells_finalTensor_unmeasured demoBench3 demoCores3 demoArgs.num_iterations
    demoArgs.num_samples 1 1 (by decide)
  have h12 := meanCells_finalTensor_unmeasured demoBench3 demoCores3 demoArgs.num_iterations
    demoArgs.num_samples 1 2 (by decide)
  have h22 := meanCells_finalTensor_unmeasured demoBench3 demoCores3 demoArgs.num_iterations
    demoArgs.num_samples 2 2 (by decide)
  unfold validMeans
  rw [show pairsList demoCores3.length =
    [(0, 0), (0, 1), (0, 2), (1, 0), (1, 1), (1, 2), (2, 0), (2, 1), (2, 2)] from by decide]
  simp only [List.filterMap_cons, List.filterMap_nil, h00, h01, h02, demo3_mean_10, h11, h12,
    demo3_mean_20, demo3_mean_21, h22, Option.map_some', Option.map_none']

lemma demo3_max :
    maxByKeyVal [(((1 : Nat), (0 : Nat)), (100 : ℚ)), ((2, 0), 100), ((2, 1), 50)] =
      some ((2, 0), 100) := by
  simp only [maxByKeyVal, List.foldl_cons, List.foldl_nil]
  rw [if_pos (by norm_num : (100 : ℚ) ≤ 100), if_neg (by norm_num : ¬ ((100 : ℚ) ≤ 50))]

/-- C4 counterexample: in the three-core symmetric demo the pairs (1,0) and
(2,0) tie for the maximal mean 100 ns; the pair first encountered in
row-major lower-triangle order is (1,0), yet the run reports (2,0):
`max_by_key` returns the *last* equally-maximal element, so the claim's
"first encountered" tie-break is false for the maximum. -/
theorem c4_counterexample :
    ∃ r, run_bench demoTopo demoCores3 demoArgs demoBench3 = .ok r ∧
      meanCells (slice3 r.tensor 1 0 demoArgs.num_samples) = some 100 ∧
      meanCells (slice3 r.tensor 2 0 demoArgs.num_samples) = some 100 ∧
      r.maxMean = 100 ∧
      pairLt (1, 0) (2, 0) ∧
      r.maxIdx = (2, 0) ∧
      r.maxIdx ≠ (1, 0) := by
  have hbo : benchOk demoTopo demoCores3 demoArgs demoBench3 = true := by decide
  obtain ⟨mE, xE, hminE, hmaxE, hmi, hmm, hmc, hxi, hxm, hxc, -, -⟩ :=
    reportSpec_min_max demoTopo demoCores3 demoArgs demoBench3 hbo
  rw [demo3_validMeans, demo3_max] at hmaxE
  injection hmaxE with hxe
  refine ⟨reportSpec demoTopo demoCores3 demoArgs demoBench3,
    run_bench_eq demoTopo demoCores3 demoArgs demoBench3 hbo, ?_, ?_, ?_, ?_, ?_, ?_⟩
  · rw [reportSpec_tensor]
    exact demo3_mean_10
  · rw [reportSpec_tensor]
    exact demo3_mean_20
  · rw [hxm, ← hxe]
  · unfold pairLt
    left
    decide
  · rw [hxi, ← hxe]
  · rw [hxi, ← hxe]
    decide

/-- C4 (amended): the reported global minimum and maximum are taken over all
non-NaN per-pair means (NaN cells excluded), each reported together with its
core-pair identity; among equal minima the run deterministically reports the
pair first encountered in row-major order, among equal maxima the pair last
encountered. -/
theorem c4_min_max_summary (topo : Topology) (cores : List CoreId) (args : CliArgs)
    (bench : Bench) (r : Report) (h : run_bench topo cores args bench = .ok r) :
    (r.minIdx.1 < cores.length ∧ r.minIdx.2 < cores.length ∧
      meanCells (slice3 r.tensor r.minIdx.1 r.minIdx.2 args.num_samples) = some r.minMean ∧
      r.minCores = ((coreAt cores r.minIdx.1).id, (coreAt cores r.minIdx.2).id)) ∧
    (∀ p a, p.1 < cores.length → p.2 < cores.length →
      meanCells (slice3 r.tensor p.1 p.2 args.num_samples) = some a →
      r.minMean ≤ a ∧ (a = r.minMean → r.minIdx = p ∨ pairLt r.minIdx p)) ∧
    (r.maxIdx.1 < cores.length ∧ r.maxIdx.2 < cores.length ∧
      meanCells (slice3 r.tensor r.maxIdx.1 r.maxIdx.2 args.num_samples) = some r.maxMean ∧
      r.maxCores = ((coreAt cores r.maxIdx.1).id, (coreAt cores r.maxIdx.2).id)) ∧
    (∀ p a, p.1 < cores.length → p.2 < cores.length →
      meanCells (slice3 r.tensor p.1 p.2 args.num_samples) = some a →
      a ≤ r.maxMean ∧ (a = r.maxMean → r.maxIdx = p ∨ pairLt p r.maxIdx)) := by
  obtain ⟨hbo, rfl⟩ := run_bench_ok topo cores args bench r h
  obtain ⟨mE, xE, hminE, hmaxE, hmi, hmm, hmc, hxi, hxm, hxc, -, -⟩ :=
    reportSpec_min_max topo cores args bench hbo
  have hpw := validMeans_pairwise (finalTensor bench cores args.num_iterations args.num_samples)
    cores.length args.num_samples
  obtain ⟨hminMem, hminLe, hminTie⟩ :=
    minByKeyVal_spec (fun x y => pairLt x.1 y.1) _ hpw mE hminE
  obtain ⟨hmaxMem, hmaxGe, hmaxTie⟩ :=
    maxByKeyVal_spec (fun x y => pairLt x.1 y.1) _ hpw xE hmaxE
  have hmE := mem_validMeans.mp hminMem
  have hxE := mem_validMeans.mp hmaxMem
  rw [reportSpec_tensor]
  refine ⟨⟨?_, ?_, ?_, ?_⟩, ?_, ⟨?_, ?_, ?_, ?_⟩, ?_⟩
  · rw [hmi]; exact hmE.1
  · rw [hmi]; exact hmE.2.1
  · rw [hmi, hmm]; exact hmE.2.2
  · rw [hmi, hmc]
  · intro p a hp1 hp2 hmc2
    have hmem : (p, a) ∈ validMeans (finalTensor bench cores args.num_iterations
        args.num_samples) cores.length args.num_samples :=
      mem_validMeans.mpr ⟨hp1, hp2, hmc2⟩
    constructor
    · rw [hmm]; exact hminLe (p, a) hmem
    · intro ha
      rw [hmi]
      rcases hminTie (p, a) hmem (by rw [ha, hmm]) with heq | hlt
      · left; rw [heq]
      · right; exact hlt
  · rw [hxi]; exact hxE.1
  · rw [hxi]; exact hxE.2.1
  · rw [hxi, hxm]; exact hxE.2.2
  · rw [hxi, hxc]
  · intro p a hp1 hp2 hmc2
    have hmem : (p, a) ∈ validMeans (finalTensor bench cores args.num_iterations
        args.num_samples) cores.length args.num_samples :=
      mem_validMeans.mpr ⟨hp1, hp2, hmc2⟩
    constructor
    · rw [hxm]; exact hmaxGe (p, a) hmem
    · intro ha
      rw [hxi]
      rcases hmaxTie (p, a) hmem (by rw [ha, hxm]) with heq | hlt
      · left; rw [heq]
      · right; exact hlt

/-- C4 witness: the theorem applied to the three-core demo run. -/
theorem c4_min_max_summary_witness :
    ((reportSpec demoTopo demoCores3 demoArgs demoBench3).minIdx.1 < demoCores3.length ∧
      (reportSpec demoTopo demoCores3 demoArgs demoBench3).minIdx.2 < demoCores3.length ∧
      meanCells (slice3 (reportSpec demoTopo demoCores3 demoArgs demoBench3).tensor
        (reportSpec demoTopo demoCores3 demoArgs demoBench3).minIdx.1
        (reportSpec demoTopo demoCores3 demoArgs demoBench3).minIdx.2 demoArgs.num_samples) =
        some (reportSpec demoTopo demoCores3 demoArgs demoBench3).minMean ∧
      (reportSpec demoTopo demoCores3 demoArgs demoBench3).minCores =
        ((coreAt demoCores3 (reportSpec demoTopo demoCores3 demoArgs demoBench3).minIdx.1).id,
         (coreAt demoCores3 (reportSpec demoTopo demoCores3 demoArgs demoBench3).minIdx.2).id)) ∧
    (∀ p a, p.1 < demoCores3.length → p.2 < demoCores3.length →
      meanCells (slice3 (reportSpec demoTopo demoCores3 demoArgs demoBench3).tensor p.1 p.2
        demoArgs.num_samples) = some a →
      (reportSpec demoTopo demoCores3 demoArgs demoBench3).minMean ≤ a ∧
      (a = (reportSpec demoTopo demoCores3 demoArgs demoBench3).minMean →
        (reportSpec demoTopo demoCores3 demoArgs demoBench3).minIdx = p ∨
          pairLt (reportSpec demoTopo demoCores3 demoArgs demoBench3).minIdx p)) ∧
    ((reportSpec demoTopo demoCores3 demoArgs demoBench3).maxIdx.1 < demoCores3.length ∧
      (reportSpec demoTopo demoCores3 demoArgs demoBench3).maxIdx.2 < demoCores3.length ∧
      meanCells (slice3 (reportSpec demoTopo demoCores3 demoArgs demoBench3).tensor
        (reportSpec demoTopo demoCores3 demoArgs demoBench3).maxIdx.1
        (reportSpec demoTopo demoCores3 demoArgs demoBench3).maxIdx.2 demoArgs.num_samples) =
        some (reportSpec demoTopo demoCores3 demoArgs demoBench3).maxMean ∧
      (reportSpec demoTopo demoCores3 demoArgs demoBench3).maxCores =
        ((coreAt demoCores3 (reportSpec demoTopo demoCores3 demoArgs demoBench3).maxIdx.1).id,
         (coreAt demoCores3 (reportSpec demoTopo demoCores3 demoArgs demoBench3).maxIdx.2).id)) ∧
    (∀ p a, p.1 < demoCores3.length → p.2 < demoCores3.length →
      meanCells (slice3 (reportSpec demoTopo demoCores3 demoArgs demoBench3).tensor p.1 p.2
        demoArgs.num_samples) = some a →
      a ≤ (reportSpec demoTopo demoCores3 demoArgs demoBench3).maxMean ∧
      (a = (reportSpec demoTopo demoCores3 demoArgs demoBench3).maxMean →
        (reportSpec demoTopo demoCores3 demoArgs demoBench3).maxIdx = p ∨
          pairLt p (reportSpec demoTopo demoCores3 demoArgs demoBench3).maxIdx)) :=
  c4_min_max_summary demoTopo demoCores3 demoArgs demoBench3 _
    (run_bench_eq demoTopo demoCores3 demoArgs demoBench3 (by decide))

lemma sampleVarNd_eq_spec (xs : List ℚ) (h : 2 ≤ xs.length) :
    sampleVarNd xs = some (specSampleVar xs) := by
  unfold sampleVarNd specSampleVar
  rw [if_neg (by omega)]

lemma pairSamplesF_length (bench : Bench) (cores : List CoreId) (ni ns : Nat) (p : Nat × Nat)
    (hlen : 1 + ns ≤ (bench.run (coreAt cores p.1, coreAt cores p.2) ni (1 + ns)).length) :
    (pairSamplesF bench cores ni ns p).length = ns := by
  unfold pairSamplesF
  rw [List.length_take, List.length_drop]
  omega

lemma meanCells_some_measured (bench : Bench) (cores : List CoreId) (ni ns : Nat)
    (a b : Nat) (v : ℚ)
    (h : meanCells (slice3 (finalTensor bench cores ni ns) a b ns) = some v) :
    measured bench.is_symmetric a b = true ∧ a < cores.length ∧ b < cores.length := by
  by_contra hc
  rw [meanCells_finalTensor_unmeasured bench cores ni ns a b hc] at h
  exact Option.noConfusion h

/-- C2 (amended): for a completed run with at least two samples per pair, the
standard error shown on the min and max summary lines is non-negative and
equals the sample standard deviation (ddof 1) of the chosen pair's samples
divided by √samples; the per-pair table cell instead shows
`min(stddev, 99) / √samples` — the standard deviation is clamped to 99
before dividing — which is likewise non-negative. -/
theorem c2_stderr_clamp (topo : Topology) (cores : List CoreId) (args : CliArgs)
    (bench : Bench) (r : Report) (h : run_bench topo cores args bench = .ok r)
    (hns2 : 2 ≤ args.num_samples) :
    (∃ v, r.minVar = some v ∧
      summaryStderr v args.num_samples =
        specStderr (pairSamplesF bench cores args.num_iterations args.num_samples r.minIdx)
          args.num_samples ∧
      0 ≤ summaryStderr v args.num_samples) ∧
    (∃ v, r.maxVar = some v ∧
      summaryStderr v args.num_samples =
        specStderr (pairSamplesF bench cores args.num_iterations args.num_samples r.maxIdx)
          args.num_samples ∧
      0 ≤ summaryStderr v args.num_samples) ∧
    (∀ i j m v, Event.cell i j m v ∈ r.events →
      tableStderr v args.num_samples =
        min (Real.sqrt ((specSampleVar (pairSamplesF bench cores args.num_iterations
          args.num_samples (i, j)) : ℚ) : ℝ)) 99 / Real.sqrt ((args.num_samples : ℕ) : ℝ) ∧
      0 ≤ tableStderr v args.num_samples) := by
  obtain ⟨hbo, rfl⟩ := run_bench_ok topo cores args bench r h
  have hbo2 := hbo
  unfold benchOk at hbo2
  simp only [Bool.and_eq_true, decide_eq_true_eq, List.all_eq_true] at hbo2
  obtain ⟨⟨hn, hns⟩, hall⟩ := hbo2
  obtain ⟨mE, xE, hminE, hmaxE, hmi, hmm, hmc, hxi, hxm, hxc, hmv, hxv⟩ :=
    reportSpec_min_max topo cores args bench hbo
  have hmE := mem_validMeans.mp
    ((minByKeyVal_spec (fun x y => pairLt x.1 y.1) _
      (validMeans_pairwise _ _ _) mE hminE).1)
  have hxE := mem_validMeans.mp
    ((maxByKeyVal_spec (fun x y => pairLt x.1 y.1) _
      (validMeans_pairwise _ _ _) xE hmaxE).1)
  have hmMeas := meanCells_some_measured bench cores args.num_iterations args.num_samples
    mE.1.1 mE.1.2 mE.2 hmE.2.2
  have hxMeas := meanCells_some_measured bench cores args.num_iterations args.num_samples
    xE.1.1 xE.1.2 xE.2 hxE.2.2
  have hmStep := stepOk_parts topo bench cores args.num_iterations args.num_samples mE.1
    hmMeas.1 (hall _ (mem_pairsList.mpr ⟨hmE.1, hmE.2.1⟩))
  have hxStep := stepOk_parts topo bench cores args.num_iterations args.num_samples xE.1
    hxMeas.1 (hall _ (mem_pairsList.mpr ⟨hxE.1, hxE.2.1⟩))
  refine ⟨?_, ?_, ?_⟩
  · refine ⟨specSampleVar (pairSamplesF bench cores args.num_iterations args.num_samples mE.1),
      ?_, ?_, ?_⟩
    · rw [hmv, varCells_finalTensor_measured bench cores args.num_iterations args.num_samples
        mE.1.1 mE.1.2 hmMeas.1 hmE.1 hmE.2.1 hmStep.2.1]
      exact sampleVarNd_eq_spec _ (by
        rw [pairSamplesF_length bench cores args.num_iterations args.num_samples mE.1 hmStep.2.1]
        omega)
    · rw [hmi]
      rfl
    · exact div_nonneg (Real.sqrt_nonneg _) (Real.sqrt_nonneg _)
  · refine ⟨specSampleVar (pairSamplesF bench cores args.num_iterations args.num_samples xE.1),
      ?_, ?_, ?_⟩
    · rw [hxv, varCells_finalTensor_measured bench cores args.num_iterations args.num_samples
        xE.1.1 xE.1.2 hxMeas.1 hxE.1 hxE.2.1 hxStep.2.1]
      exact sampleVarNd_eq_spec _ (by
        rw [pairSamplesF_length bench cores args.num_iterations args.num_samples xE.1 hxStep.2.1]
        omega)
    · rw [hxi]
      rfl
    · exact div_nonneg (Real.sqrt_nonneg _) (Real.sqrt_nonneg _)
  · intro i j m v hmem
    rw [reportSpec_events, List.mem_flatMap] at hmem
    obtain ⟨q, hq, heq⟩ := hmem
    have hqM := (List.mem_filter.mp hq).2
    have hqP := mem_pairsList.mp (List.mem_filter.mp hq).1
    have hqStep := stepOk_parts topo bench cores args.num_iterations args.num_samples q
      hqM (hall _ (List.mem_filter.mp hq).1)
    unfold chunkOf at heq
    rcases List.mem_cons.mp heq with hbad | heq2
    · exact Event.noConfusion hbad
    rcases List.mem_cons.mp heq2 with hbad | heq3
    · exact Event.noConfusion hbad
    rcases List.mem_cons.mp heq3 with hcell | hbad
    · injection hcell with h1 h2 h3 h4
      subst h1
      subst h2
      subst h4
      have hvspec : sampleVarNd (pairSamplesF bench cores args.num_iterations
          args.num_samples q) =
          some (specSampleVar (pairSamplesF bench cores args.num_iterations
            args.num_samples q)) :=
        sampleVarNd_eq_spec _ (by
          rw [pairSamplesF_length bench cores args.num_iterations args.num_samples q
            hqStep.2.1]
          omega)
      rw [hvspec]
      constructor
      · rfl
      · unfold tableStderr
        exact div_nonneg (le_min (Real.sqrt_nonneg _) (by norm_num)) (Real.sqrt_nonneg _)
    · exact absurd hbad (List.not_mem_nil _)

/-- C2 counterexample: in the two-core run whose pair (1,0) records samples 0
and 300 (ddof-1 variance 45000, standard deviation ≈ 212), the printed table
cell shows `min(√45000, 99)/√2 = 99/√2`, which differs from the claimed
`stddev/√samples = √45000/√2 = 150` — the table cell's standard deviation is
clamped at 99. -/
theorem c2_counterexample :
    ∃ r, run_bench demoTopo demoCores2 demoArgs demoBenchClamp = .ok r ∧
      r.tensor 1 0 0 = some 0 ∧
      r.tensor 1 0 1 = some 300 ∧
      Event.cell 1 0 150 (some 45000) ∈ r.events ∧
      tableStderr (some 45000) 2 ≠ specStderr [0, 300] 2 := by
  have hbo : benchOk demoTopo demoCores2 demoArgs demoBenchClamp = true := by decide
  refine ⟨reportSpec demoTopo demoCores2 demoArgs demoBenchClamp,
    run_bench_eq demoTopo demoCores2 demoArgs demoBenchClamp hbo, ?_, ?_, ?_, ?_⟩
  · rw [reportSpec_tensor]
    unfold finalTensor
    rw [if_pos (by decide)]
    rfl
  · rw [reportSpec_tensor]
    unfold finalTensor
    rw [if_pos (by decide)]
    rfl
  · rw [reportSpec_events]
    rw [show ((pairsList demoCores2.length).filter
        (fun p => measured demoBenchClamp.is_symmetric p.1 p.2)) = [(1, 0)] from by decide]
    rw [List.flatMap_cons, List.flatMap_nil, List.append_nil]
    have hmean : pairMeanF demoBenchClamp demoCores2 demoArgs.num_iterations
        demoArgs.num_samples (1, 0) = 150 := by
      norm_num [pairMeanF, pairSamplesF, demoBenchClamp, demoArgs, coreAt, demoCores2]
    have hvar : sampleVarNd (pairSamplesF demoBenchClamp demoCores2 demoArgs.num_iterations
        demoArgs.num_samples (1, 0)) = some 45000 := by
      norm_num [sampleVarNd, pairSamplesF, demoBenchClamp, demoArgs, coreAt, demoCores2]
    unfold chunkOf
    rw [hmean, hvar]
    exact List.mem_cons_of_mem _ (List.mem_cons_of_mem _ (List.mem_cons_self _ _))
  · intro heq
    have htab : tableStderr (some 45000) 2 =
        min (Real.sqrt ((45000 : ℚ) : ℝ)) 99 / Real.sqrt ((2 : ℕ) : ℝ) := rfl
    have hspecv : specSampleVar [(0 : ℚ), 300] = 45000 := by
      norm_num [specSampleVar]
    have hspec : specStderr [(0 : ℚ), 300] 2 =
        Real.sqrt ((45000 : ℚ) : ℝ) / Real.sqrt ((2 : ℕ) : ℝ) := by
      unfold specStderr
      rw [hspecv]
    rw [htab, hspec] at heq
    have hcast : ((45000 : ℚ) : ℝ) = (45000 : ℝ) := by norm_num
    rw [hcast] at heq
    have h99 : (99 : ℝ) < Real.sqrt 45000 := by
      have h1 : (99 : ℝ) = Real.sqrt (99 ^ 2) := (Real.sqrt_sq (by norm_num)).symm
      rw [h1]
      exact Real.sqrt_lt_sqrt (by positivity) (by norm_num)
    rw [min_eq_right (le_of_lt h99)] at heq
    have hs2 : Real.sqrt ((2 : ℕ) : ℝ) ≠ 0 := by
      have h2 : ((2 : ℕ) : ℝ) = (2 : ℝ) := by norm_num
      rw [h2]
      positivity
    rw [div_eq_div_iff hs2 hs2] at heq
    exact ne_of_lt h99 (mul_right_cancel₀ hs2 heq)

/-- C2 witness: the amended statement applied to the two-core clamp demo. -/
theorem c2_stderr_clamp_witness :
    (∃ v, (reportSpec demoTopo demoCores2 demoArgs demoBenchClamp).minVar = some v ∧
      summaryStderr v demoArgs.num_samples =
        specStderr (pairSamplesF demoBenchClamp demoCores2 demoArgs.num_iterations
          demoArgs.num_samples
          (reportSpec demoTopo demoCores2 demoArgs demoBenchClamp).minIdx)
          demoArgs.num_samples ∧
      0 ≤ summaryStderr v demoArgs.num_samples) ∧
    (∃ v, (reportSpec demoTopo demoCores2 demoArgs demoBenchClamp).maxVar = some v ∧
      summaryStderr v demoArgs.num_samples =
        specStderr (pairSamplesF demoBenchClamp demoCores2 demoArgs.num_iterations
          demoArgs.num_samples
          (reportSpec demoTopo demoCores2 demoArgs demoBenchClamp).maxIdx)
          demoArgs.num_samples ∧
      0 ≤ summaryStderr v demoArgs.num_samples) ∧
    (∀ i j m v, Event.cell i j m v ∈
        (reportSpec demoTopo demoCores2 demoArgs demoBenchClamp).events →
      tableStderr v demoArgs.num_samples =
        min (Real.sqrt ((specSampleVar (pairSamplesF demoBenchClamp demoCores2
          demoArgs.num_iterations demoArgs.num_samples (i, j)) : ℚ) : ℝ)) 99 /
          Real.sqrt ((demoArgs.num_samples : ℕ) : ℝ) ∧
      0 ≤ tableStderr v demoArgs.num_samples) :=
  c2_stderr_clamp demoTopo demoCores2 demoArgs demoBenchClamp _
    (run_bench_eq demoTopo demoCores2 demoArgs demoBenchClamp (by decide)) (by decide)
